import Mathlib

/-!
wbcmd: command resolution, validation and execution

A shallow embedding of `wbcmd.go`.  Go strings are `String`, slices are `List`,
an `error` value is `Option String` holding the message given to `errors.New`
(`none` is `nil`), and a multi-value return is a pair.

`strings.ToLower` belongs to the Go standard library, not to this program, so the
functions that call it take the case mapping as a parameter `lower`; general
statements hold for every such mapping.  Concrete evaluations use `asciiLower`,
which agrees with `strings.ToLower` on ASCII text.
-/

namespace Wbcmd

/-! ## Data model -/

/-- Go `type Device struct`: one relay reachable through a broker. -/
structure Device where
  WB_MQTT_HOST : String
  NAME : String
  TARGET : String
  CHANNEL : String
  deriving DecidableEq, Repr

/-- Go `type Command struct`: the triple given on the command line. -/
structure Command where
  target : String
  action : String
  device_name : String
  deriving DecidableEq, Repr

/-- The zero value `Device{}`. -/
def Device.empty : Device := ⟨"", "", "", ""⟩

/-- The zero value `Command{}`. -/
def Command.empty : Command := ⟨"", "", ""⟩

/-- Package variable `ALLOWED_ACTIONS`. -/
def ALLOWED_ACTIONS : List String := ["up", "down"]

/-- Package variable `EXTRA_ACTIONS_FOR_POWER`. -/
def EXTRA_ACTIONS_FOR_POWER : List String := ["restart"]

/-- The mapping of `strings.ToLower` on ASCII text: `A`..`Z` go to `a`..`z`, every
other character is kept. -/
def asciiLower (s : String) : String := String.mk (s.data.map Char.toLower)

/-! ## Resolution and validation -/

/-- Go `contains`: linear scan with an early `return true`. -/
def contains : List String → String → Bool
  | [], _ => false
  | a :: s, e => if a = e then true else contains s e

/-- Go `get_devices_by_name`: the loop appends every device whose `NAME` is `name`
to an initially nil slice. -/
def get_devices_by_name (devices : List Device) (name : String) : List Device :=
  devices.foldl
    (fun selected_devices device =>
      if device.NAME = name then selected_devices ++ [device] else selected_devices)
    []

/-- Go `get_devices_for_command`: the loop appends every device whose `NAME` and
`TARGET` are those of the command. -/
def get_devices_for_command (devices : List Device) (command : Command) : List Device :=
  devices.foldl
    (fun selected_devices device =>
      if device.NAME = command.device_name ∧ device.TARGET = command.target then
        selected_devices ++ [device]
      else selected_devices)
    []

/-- Go `get_device_for_command`: element 0 of the selection, or `Device{}` with the
error `no applicable device` when the selection is empty. -/
def get_device_for_command (devices : List Device) (command : Command) :
    Device × Option String :=
  let selected_devices := get_devices_for_command devices command
  if h : selected_devices.length = 0 then
    (Device.empty, some "no applicable device")
  else
    (selected_devices.get ⟨0, Nat.pos_of_ne_zero h⟩, none)

/-- Go `is_command_correct`: name check, then target check, then action check. -/
def is_command_correct (command : Command) (devices : List Device) :
    Bool × Option String :=
  let devices_by_name := get_devices_by_name devices command.device_name
  if devices_by_name.length = 0 then
    (false, some ("Device '" ++ command.device_name ++ "' is not defined"))
  else
    let err := (get_device_for_command devices command).2
    if err ≠ none then
      (false, err)
    else if command.target = "power" then
      if !contains (ALLOWED_ACTIONS ++ EXTRA_ACTIONS_FOR_POWER) command.action then
        (false, some ("Action '" ++ command.action ++ "' is not supported"))
      else (true, none)
    else
      if !contains ALLOWED_ACTIONS command.action then
        (false, some ("Action '" ++ command.action ++ "' is not supported"))
      else (true, none)

/-! ## Normalisation done by the callers -/

/-- The loop of Go `read_stand_config` over the parsed table: it stores the
lower-cased `NAME` and `TARGET` back into every element; `WB_MQTT_HOST` and
`CHANNEL` are not touched. -/
def read_stand_config_normalize (lower : String → String) (devices : List Device) :
    List Device :=
  devices.map fun device =>
    { device with NAME := lower device.NAME, TARGET := lower device.TARGET }

/-- The command built by Go `parce_cmd_args` from `os.Args[1]`, `os.Args[2]` and
`os.Args[3]`: each argument is lower-cased. -/
def parce_cmd_args_command (lower : String → String) (arg1 arg2 arg3 : String) : Command :=
  Command.mk (lower arg1) (lower arg2) (lower arg3)

/-! ## Execution against the broker

The MQTT client is a collaborator.  A run of `execute_command` is described by the
list of broker and clock operations it performs, in order, together with the error
it returns.  Console output is not part of the trace. -/

/-- The `mqtt.Token` of a finished operation, reduced to the error it carries. -/
structure Token where
  err : Option String
  deriving DecidableEq, Repr

/-- Go `token.Wait()`: blocks until the operation is complete, then reports `true`. -/
def Token.Wait (_t : Token) : Bool := true

/-- Go `token.Error()`. -/
def Token.Error (t : Token) : Option String := t.err

/-- One operation performed on the broker client or on the clock.  `Connect` and
`Publish` record the error of the token the client handed back. -/
inductive Event where
  | Connect (url : String) (result : Option String)
  | Publish (topic : String) (qos : Nat) (retained : Bool) (payload : String)
      (result : Option String)
  | Sleep (seconds : Nat)
  | Disconnect (quiesce : Nat)
  deriving DecidableEq, Repr

/-- The broker collaborator: the token of a connect to a broker address, and the
token of a publish of a payload to a topic, which may depend on everything done
before it. -/
structure Broker where
  connect : String → Token
  publish : List Event → String → String → Token

/-- Go `publish`: `client.Publish(channel, 0, false, action)`, `token.Wait()` with the
result dropped, then `time.Sleep(time.Second)`.  The token's error is never read. -/
def publish (client : Broker) (trace : List Event) (channel action : String) :
    List Event :=
  let token := client.publish trace channel action
  let _ := token.Wait
  trace ++ [Event.Publish channel 0 false action token.Error, Event.Sleep 1]

/-- Go `execute_command`.  The error of `get_device_for_command` is discarded; the
connect error is returned as is; the action selects the publishes; `Disconnect(250)`
follows the `if` chain, which the final `else` leaves by `return`. -/
def execute_command (client : Broker) (command : Command) (devices : List Device) :
    List Event × Option String :=
  let device := (get_device_for_command devices command).1
  let token := client.connect device.WB_MQTT_HOST
  let trace := [Event.Connect device.WB_MQTT_HOST token.Error]
  if token.Wait && token.Error != none then
    (trace, token.Error)
  else if command.action = "up" then
    let trace := publish client trace device.CHANNEL "1"
    (trace ++ [Event.Disconnect 250], none)
  else if command.action = "down" then
    let trace := publish client trace device.CHANNEL "0"
    (trace ++ [Event.Disconnect 250], none)
  else if command.action = "restart" then
    let trace := publish client trace device.CHANNEL "0"
    let trace := trace ++ [Event.Sleep 7]
    let trace := publish client trace device.CHANNEL "1"
    (trace ++ [Event.Disconnect 250], none)
  else
    (trace, some ("Action " ++ command.action ++ " is unknown"))

/-- The `(topic, payload)` pairs of the publishes of a trace, in order. -/
def publishes : List Event → List (String × String)
  | [] => []
  | Event.Publish topic _ _ payload _ :: rest => (topic, payload) :: publishes rest
  | _ :: rest => publishes rest

/-- Whether a trace contains a `Disconnect`. -/
def disconnects : List Event → Bool
  | [] => false
  | Event.Disconnect _ :: _ => true
  | _ :: rest => disconnects rest

/-- Whether some publish of a trace was reported as failed by the broker. -/
def publishFailed : List Event → Bool
  | [] => false
  | Event.Publish _ _ _ _ (some _) :: _ => true
  | _ :: rest => publishFailed rest

/-- A broker that accepts every connect and every publish. -/
def okBroker : Broker := ⟨fun _ => ⟨none⟩, fun _ _ _ => ⟨none⟩⟩

/-- A broker that accepts every connect and rejects every publish. -/
def lossyBroker : Broker := ⟨fun _ => ⟨none⟩, fun _ _ _ => ⟨some "publish failed"⟩⟩

/-- A broker that accepts the connect and the first publish and rejects every
publish made after an earlier one. -/
def secondFailsBroker : Broker :=
  ⟨fun _ => ⟨none⟩, fun trace _ _ => if publishes trace = [] then ⟨none⟩ else ⟨some "publish failed"⟩⟩

/-! ## Loading the configuration -/

/-- The second loop of Go `parse_json_config`: it stops at the first record with an
empty `WB_MQTT_HOST`, `NAME`, `TARGET` or `CHANNEL`. -/
def incorrect_device_detected : List Device → Bool
  | [] => false
  | device :: rest =>
    if device.WB_MQTT_HOST = "" ∨ device.NAME = "" ∨ device.TARGET = ""
        ∨ device.CHANNEL = "" then true
    else incorrect_device_detected rest

/-- Go `parse_json_config`.  `json.Unmarshal` is the decoder of the standard library
and is a parameter: it gives the decoded records and its error.  The first loop
assigns the lower-cased `NAME` and `TARGET` to its loop variable, which is a copy of
the element, so the slice keeps its contents.  A nil slice is the empty list. -/
def parse_json_config (json_Unmarshal : List UInt8 → List Device × Option String)
    (lower : String → String) (file_data : List UInt8) : List Device × Option String :=
  let decoded := json_Unmarshal file_data
  let devices := decoded.1
  let err := decoded.2
  if err ≠ none then
    ([], err)
  else
    let devices := devices.foldl
      (fun (table : List Device) device =>
        let _device : Device :=
          { device with NAME := lower device.NAME, TARGET := lower device.TARGET }
        table)
      devices
    if incorrect_device_detected devices then
      ([], some "incorrect device detected")
    else
      (devices, none)

/-! ## Help page -/

/-- Go `is_help_request`. -/
def is_help_request (lower : String → String) (cmd_argument : String) : Bool :=
  let cmd_argument := lower cmd_argument
  if cmd_argument = "-h" ∨ cmd_argument = "--help" ∨ cmd_argument = "?" then true
  else false

/-- Go `get_basic_help_page`. -/
def get_basic_help_page : String :=
  let basic_help_page := ""
  let basic_help_page := basic_help_page ++ "\nUsage:\n"
  let basic_help_page := basic_help_page ++ "\twbcmd <target> <action> <device>\n"
  let basic_help_page := basic_help_page ++ "\nOptions:\n"
  basic_help_page

/-- The order of Go strings, `a <= b`: lexicographic by bytes, which on text is
lexicographic by characters. -/
def string_le (a b : String) : Prop := a.data ≤ b.data

instance string_le_decidable : DecidableRel string_le :=
  fun a b => inferInstanceAs (Decidable (a.data ≤ b.data))

/-- Go `sort.Strings`: the slice put in increasing order. -/
def sort_Strings (s : List String) : List String := s.insertionSort string_le

/-- The closure `is_contains` of Go `generate_help_page`. -/
def is_contains : List String → String → Bool
  | [], _ => false
  | i :: list, item => if i = item then true else is_contains list item

/-- The closure `slice_to_string` of Go `generate_help_page`: sorts the slice, then
writes every item between single quotes, with `, ` in front of all but the first. -/
def slice_to_string (s : List String) : String :=
  let s := sort_Strings s
  (s.foldl
    (fun (state : String × Bool) item =>
      let my_str := state.1
      let is_first := state.2
      let my_str := if !is_first then my_str ++ ", " else my_str
      let my_str := my_str ++ ("'" ++ item ++ "'")
      (my_str, false))
    ("", true)).1

/-- One pass of the loop of Go `generate_help_page` over the table, on the three
slices `allowed_targets`, `allowed_devices` and `allowed_actions`. -/
def generate_help_page_step (lower : String → String)
    (state : List String × List String × List String) (device : Device) :
    List String × List String × List String :=
  let allowed_targets := state.1
  let allowed_devices := state.2.1
  let allowed_actions := state.2.2
  let target := lower device.TARGET
  let allowed_targets :=
    if !is_contains allowed_targets target then allowed_targets ++ [target]
    else allowed_targets
  let device := lower device.NAME
  let allowed_devices :=
    if !is_contains allowed_devices device then allowed_devices ++ [device]
    else allowed_devices
  let allowed_actions :=
    if target = "power" ∧ ¬ is_contains allowed_actions "restart" = true then
      allowed_actions ++ ["restart"]
    else allowed_actions
  (allowed_targets, allowed_devices, allowed_actions)

/-- The loop of Go `generate_help_page` over the table, from the initial slices
`[]`, `[]` and `["up", "down"]`. -/
def generate_help_page_lists (lower : String → String) (devices : List Device) :
    List String × List String × List String :=
  devices.foldl (generate_help_page_step lower) ([], [], ["up", "down"])

/-- Go `generate_help_page`.  `slice_to_string` sorts its argument in place, so the
test for `restart` that follows the action line reads the sorted `allowed_actions`. -/
def generate_help_page (lower : String → String) (devices : List Device) : String :=
  let lists := generate_help_page_lists lower devices
  let allowed_targets := lists.1
  let allowed_devices := lists.2.1
  let allowed_actions := lists.2.2
  let help_page := get_basic_help_page
  let help_page := help_page
    ++ ("\t<target>\t\t\tWhat you want switch. Allowed values: "
      ++ slice_to_string allowed_targets ++ "\n")
  let help_page := help_page
    ++ ("\t<action>\t\t\tWhat action you want to do. Allowed values: "
      ++ slice_to_string allowed_actions)
  let allowed_actions := sort_Strings allowed_actions
  let help_page :=
    if is_contains allowed_actions "restart" then
      help_page ++ " ('restart' may be applicable for 'power' only)"
    else help_page
  let help_page := help_page ++ "\n"
  let help_page := help_page
    ++ ("\t<device>\t\t\tDevice name. Allowed values: " ++ slice_to_string allowed_devices)
  let help_page := help_page ++ "\n"
  help_page

/-! ## Command line -/

/-- How Go `parce_cmd_args` ends: by `os.Exit` after printing, or by returning. -/
inductive ParseOutcome where
  | Exit (status : Nat) (stdout : String)
  | Return (command : Command) (err : Option String)
  deriving DecidableEq, Repr

/-- Go `parce_cmd_args`, with `os.Args` as the list `args` (element 0 is the program
name). -/
def parce_cmd_args (lower : String → String) (args : List String) (devices : List Device) :
    ParseOutcome :=
  if args.length = 2 ∧ is_help_request lower (args.getD 1 "") = true then
    ParseOutcome.Exit 0 (generate_help_page lower devices)
  else if args.length ≠ 4 then
    ParseOutcome.Return Command.empty (some "expectes 3 arguments")
  else
    let command :=
      parce_cmd_args_command lower (args.getD 1 "") (args.getD 2 "") (args.getD 3 "")
    let checked := is_command_correct command devices
    let is_correct := checked.1
    let err := checked.2
    if err ≠ none then
      ParseOutcome.Return Command.empty err
    else if !is_correct then
      ParseOutcome.Return Command.empty (some "unkown error")
    else
      ParseOutcome.Return command none

/-! ## The help page as the specification words it -/

/-- Every value between single quotes, the values joined by `, `. -/
def quote_join (values : List String) : String :=
  String.intercalate ", " (values.map fun value => "'" ++ value ++ "'")

/-- The fixed layout of the help page: the usage header, then the `<target>`,
`<action>` and `<device>` lines around the three given texts. -/
def help_template (targets actions devices : String) : String :=
  get_basic_help_page
    ++ ("\t<target>\t\t\tWhat you want switch. Allowed values: " ++ targets ++ "\n")
    ++ ("\t<action>\t\t\tWhat action you want to do. Allowed values: " ++ actions ++ "\n")
    ++ ("\t<device>\t\t\tDevice name. Allowed values: " ++ devices ++ "\n")

/-- The guarded append of the loop of `generate_help_page`: `item` goes to the end of
the slice unless the slice holds it already. -/
def append_if_absent (list : List String) (item : String) : List String :=
  if !is_contains list item then list ++ [item] else list

/-- What the loop of `generate_help_page` does to `allowed_actions` for one target. -/
def append_restart_for (allowed_actions : List String) (target : String) : List String :=
  if target = "power" ∧ ¬ is_contains allowed_actions "restart" = true then
    allowed_actions ++ ["restart"]
  else allowed_actions

/-! ## Reading error messages -/

/-- A message names a value when the value occurs in it as a contiguous run of
characters. -/
def is_substring (value message : String) : Prop := value.data <:+: message.data

instance is_substring_decidable (value message : String) :
    Decidable (is_substring value message) :=
  inferInstanceAs (Decidable (value.data <:+: message.data))

/-! ## Auxiliary facts about the selection loops -/

/-- The append loop of the two selection functions computes a filter, after the
elements already selected. -/
theorem foldl_select_eq (p : Device → Prop) [DecidablePred p] (devices init : List Device) :
    devices.foldl (fun selected device => if p device then selected ++ [device] else selected)
      init = init ++ devices.filter (fun device => decide (p device)) := by
  induction devices generalizing init with
  | nil => simp
  | cons d rest ih =>
    by_cases hd : p d
    · simp [List.foldl_cons, ih, hd]
    · simp [List.foldl_cons, ih, hd]

theorem get_devices_by_name_eq_filter (devices : List Device) (name : String) :
    get_devices_by_name devices name
      = devices.filter (fun device => decide (device.NAME = name)) := by
  unfold get_devices_by_name
  rw [foldl_select_eq (fun device => device.NAME = name)]
  simp

theorem get_devices_for_command_eq_filter (devices : List Device) (command : Command) :
    get_devices_for_command devices command
      = devices.filter (fun device =>
          decide (device.NAME = command.device_name ∧ device.TARGET = command.target)) := by
  unfold get_devices_for_command
  rw [foldl_select_eq
    (fun device => device.NAME = command.device_name ∧ device.TARGET = command.target)]
  simp

/-- When no record has the command's name and target, the lookup fails. -/
theorem get_device_for_command_none (devices : List Device) (command : Command)
    (h : ∀ x ∈ devices, ¬ (x.NAME = command.device_name ∧ x.TARGET = command.target)) :
    get_device_for_command devices command = (Device.empty, some "no applicable device") := by
  have hsel : get_devices_for_command devices command = [] := by
    rw [get_devices_for_command_eq_filter, List.filter_eq_nil_iff]
    intro x hx
    simpa using h x hx
  simp [get_device_for_command, hsel]

/-- The lookup returns the record in front of which no record matches. -/
theorem get_device_for_command_split (pre post : List Device) (d : Device) (command : Command)
    (hpre : ∀ x ∈ pre, ¬ (x.NAME = command.device_name ∧ x.TARGET = command.target))
    (hd : d.NAME = command.device_name ∧ d.TARGET = command.target) :
    get_device_for_command (pre ++ d :: post) command = (d, none) := by
  have hpre' : pre.filter (fun device =>
      decide (device.NAME = command.device_name ∧ device.TARGET = command.target)) = [] := by
    rw [List.filter_eq_nil_iff]
    intro x hx
    simpa using hpre x hx
  have hsel : get_devices_for_command (pre ++ d :: post) command
      = d :: post.filter (fun device =>
          decide (device.NAME = command.device_name ∧ device.TARGET = command.target)) := by
    rw [get_devices_for_command_eq_filter, List.filter_append, hpre', List.nil_append,
      List.filter_cons_of_pos (by simpa using hd)]
  simp [get_device_for_command, hsel]

/-- A list with an element satisfying `p` splits at the first such element. -/
theorem exists_first_split (p : Device → Prop) (devices : List Device)
    (h : ∃ x ∈ devices, p x) :
    ∃ pre d post, devices = pre ++ d :: post ∧ (∀ x ∈ pre, ¬ p x) ∧ p d := by
  classical
  induction devices with
  | nil => simp at h
  | cons a rest ih =>
    by_cases ha : p a
    · exact ⟨[], a, rest, rfl, by simp, ha⟩
    · have h' : ∃ x ∈ rest, p x := by
        obtain ⟨x, hx, hpx⟩ := h
        rcases List.mem_cons.mp hx with rfl | hx'
        · exact absurd hpx ha
        · exact ⟨x, hx', hpx⟩
      obtain ⟨pre, d, post, hsplit, hpre, hd⟩ := ih h'
      refine ⟨a :: pre, d, post, by simp [hsplit], ?_, hd⟩
      intro x hx
      rcases List.mem_cons.mp hx with rfl | hx'
      · exact ha
      · exact hpre x hx'

/-- The lookup succeeds exactly when some record has the command's name and target. -/
theorem get_device_for_command_err_none_iff (devices : List Device) (command : Command) :
    (get_device_for_command devices command).2 = none
      ↔ ∃ x ∈ devices, x.NAME = command.device_name ∧ x.TARGET = command.target := by
  constructor
  · intro h
    by_contra hne
    have hall : ∀ x ∈ devices,
        ¬ (x.NAME = command.device_name ∧ x.TARGET = command.target) := by
      intro x hx hp
      exact hne ⟨x, hx, hp⟩
    rw [get_device_for_command_none devices command hall] at h
    simp at h
  · intro h
    obtain ⟨pre, d, post, hsplit, hpre, hd⟩ :=
      exists_first_split
        (fun x => x.NAME = command.device_name ∧ x.TARGET = command.target) devices h
    rw [hsplit, get_device_for_command_split pre post d command hpre hd]

/-- The name check of `is_command_correct` passes exactly when the name occurs. -/
theorem get_devices_by_name_length_eq_zero_iff (devices : List Device) (name : String) :
    (get_devices_by_name devices name).length = 0 ↔ ∀ x ∈ devices, x.NAME ≠ name := by
  rw [get_devices_by_name_eq_filter, List.length_eq_zero, List.filter_eq_nil_iff]
  simp

/-- Membership in the two action lists, spelled out. -/
theorem contains_allowed (a : String) :
    contains ALLOWED_ACTIONS a = true ↔ a = "up" ∨ a = "down" := by
  simp only [contains, ALLOWED_ACTIONS]
  constructor
  · intro h
    by_cases h1 : "up" = a
    · exact Or.inl h1.symm
    · by_cases h2 : "down" = a
      · exact Or.inr h2.symm
      · simp [h1, h2] at h
  · rintro (rfl | rfl) <;> simp

theorem contains_allowed_power (a : String) :
    contains (ALLOWED_ACTIONS ++ EXTRA_ACTIONS_FOR_POWER) a = true
      ↔ a = "up" ∨ a = "down" ∨ a = "restart" := by
  simp only [contains, ALLOWED_ACTIONS, EXTRA_ACTIONS_FOR_POWER, List.cons_append,
    List.nil_append]
  constructor
  · intro h
    by_cases h1 : "up" = a
    · exact Or.inl h1.symm
    · by_cases h2 : "down" = a
      · exact Or.inr (Or.inl h2.symm)
      · by_cases h3 : "restart" = a
        · exact Or.inr (Or.inr h3.symm)
        · simp [h1, h2, h3] at h
  · rintro (rfl | rfl | rfl) <;> simp

/-- With a record for the command's name and target present, the lookup returns a
record of the table that has them. -/
theorem get_device_for_command_exists (devices : List Device) (command : Command)
    (h : ∃ x ∈ devices, x.NAME = command.device_name ∧ x.TARGET = command.target) :
    ∃ d ∈ devices, (d.NAME = command.device_name ∧ d.TARGET = command.target)
      ∧ get_device_for_command devices command = (d, none) := by
  obtain ⟨pre, d, post, hsplit, hpre, hd⟩ :=
    exists_first_split
      (fun x => x.NAME = command.device_name ∧ x.TARGET = command.target) devices h
  refine ⟨d, by simp [hsplit], hd, ?_⟩
  rw [hsplit]
  exact get_device_for_command_split pre post d command hpre hd

/-- With a record for the command's name and target present, only the action check of
`is_command_correct` remains. -/
theorem is_command_correct_of_match (devices : List Device) (command : Command)
    (h : ∃ d ∈ devices, d.NAME = command.device_name ∧ d.TARGET = command.target) :
    is_command_correct command devices
      = if command.target = "power" then
          (if contains (ALLOWED_ACTIONS ++ EXTRA_ACTIONS_FOR_POWER) command.action = true then
            (true, none)
           else (false, some ("Action '" ++ command.action ++ "' is not supported")))
        else
          (if contains ALLOWED_ACTIONS command.action = true then (true, none)
           else (false, some ("Action '" ++ command.action ++ "' is not supported"))) := by
  have hname : ¬ (get_devices_by_name devices command.device_name).length = 0 := by
    rw [get_devices_by_name_length_eq_zero_iff]
    obtain ⟨d, hd, hn, _⟩ := h
    intro hall
    exact hall d hd hn
  have herr : (get_device_for_command devices command).2 = none :=
    (get_device_for_command_err_none_iff devices command).mpr h
  unfold is_command_correct
  simp only [hname, herr, if_false, ne_eq, not_true_eq_false]
  by_cases ht : command.target = "power"
  · rw [if_pos ht, if_pos ht]
    cases contains (ALLOWED_ACTIONS ++ EXTRA_ACTIONS_FOR_POWER) command.action <;> simp
  · rw [if_neg ht, if_neg ht]
    cases contains ALLOWED_ACTIONS command.action <;> simp

/-- A legal action on a present record is accepted. -/
theorem is_command_correct_accepts (devices : List Device) (command : Command)
    (h : ∃ d ∈ devices, d.NAME = command.device_name ∧ d.TARGET = command.target)
    (hlegal : command.action = "up" ∨ command.action = "down"
      ∨ (command.action = "restart" ∧ command.target = "power")) :
    is_command_correct command devices = (true, none) := by
  rw [is_command_correct_of_match devices command h]
  by_cases ht : command.target = "power"
  · have hc : contains (ALLOWED_ACTIONS ++ EXTRA_ACTIONS_FOR_POWER) command.action = true := by
      rw [contains_allowed_power]
      rcases hlegal with h1 | h2 | ⟨h3, _⟩
      · exact Or.inl h1
      · exact Or.inr (Or.inl h2)
      · exact Or.inr (Or.inr h3)
    rw [if_pos ht, if_pos hc]
  · have hc : contains ALLOWED_ACTIONS command.action = true := by
      rw [contains_allowed]
      rcases hlegal with h1 | h2 | ⟨_, h3⟩
      · exact Or.inl h1
      · exact Or.inr h2
      · exact absurd h3 ht
    rw [if_neg ht, if_pos hc]

/-- On a normalised table the lookup returns the normalised form of the first record
whose lower-cased name and target are those of the command. -/
theorem get_device_for_command_normalize_split (lower : String → String)
    (pre post : List Device) (e : Device) (command : Command)
    (hpre : ∀ x ∈ pre,
      ¬ (lower x.NAME = command.device_name ∧ lower x.TARGET = command.target))
    (hn : lower e.NAME = command.device_name) (ht : lower e.TARGET = command.target) :
    get_device_for_command (read_stand_config_normalize lower (pre ++ e :: post)) command
      = (Device.mk e.WB_MQTT_HOST (lower e.NAME) (lower e.TARGET) e.CHANNEL, none) := by
  unfold read_stand_config_normalize
  rw [List.map_append, List.map_cons]
  apply get_device_for_command_split
  · intro x hx
    obtain ⟨y, hy, rfl⟩ := List.mem_map.mp hx
    exact hpre y hy
  · exact ⟨hn, ht⟩

/-- A failed connect ends the run: its error is returned and nothing is published. -/
theorem execute_command_connect_error (client : Broker) (devices : List Device)
    (command : Command) (e : String)
    (h : (client.connect (get_device_for_command devices command).1.WB_MQTT_HOST).Error
      = some e) :
    execute_command client command devices
      = ([Event.Connect (get_device_for_command devices command).1.WB_MQTT_HOST (some e)],
          some e) := by
  unfold execute_command
  simp [h, Token.Wait]

/-! ## Validation: `is_command_correct` -/

/-- C1: when the table holds a device with the command's name and target,
`is_command_correct` returns `(true, nil)` exactly when the action is `up` or `down`,
or is `restart` with the target equal to `power`; in every other case it returns
`false` with the error `Action '<action>' is not supported`. -/
theorem is_command_correct_action_legality (devices : List Device) (command : Command)
    (h : ∃ d ∈ devices, d.NAME = command.device_name ∧ d.TARGET = command.target) :
    (is_command_correct command devices = (true, none)
        ↔ command.action = "up" ∨ command.action = "down"
          ∨ (command.action = "restart" ∧ command.target = "power"))
    ∧ (¬ (command.action = "up" ∨ command.action = "down"
          ∨ (command.action = "restart" ∧ command.target = "power"))
        → is_command_correct command devices
            = (false, some ("Action '" ++ command.action ++ "' is not supported"))) := by
  have hp := contains_allowed_power command.action
  have ha := contains_allowed command.action
  rw [is_command_correct_of_match devices command h]
  by_cases ht : command.target = "power"
  · rw [if_pos ht]
    by_cases hc : contains (ALLOWED_ACTIONS ++ EXTRA_ACTIONS_FOR_POWER) command.action = true
    · have hlegal : command.action = "up" ∨ command.action = "down"
          ∨ (command.action = "restart" ∧ command.target = "power") := by
        rcases hp.mp hc with h1 | h2 | h3
        · exact Or.inl h1
        · exact Or.inr (Or.inl h2)
        · exact Or.inr (Or.inr ⟨h3, ht⟩)
      rw [if_pos hc]
      exact ⟨⟨fun _ => hlegal, fun _ => rfl⟩, fun hn => absurd hlegal hn⟩
    · have hillegal : ¬ (command.action = "up" ∨ command.action = "down"
          ∨ (command.action = "restart" ∧ command.target = "power")) := by
        rintro (h1 | h2 | ⟨h3, _⟩)
        · exact hc (hp.mpr (Or.inl h1))
        · exact hc (hp.mpr (Or.inr (Or.inl h2)))
        · exact hc (hp.mpr (Or.inr (Or.inr h3)))
      rw [if_neg hc]
      refine ⟨⟨fun heq => ?_, fun hl => absurd hl hillegal⟩, fun _ => rfl⟩
      simp at heq
  · rw [if_neg ht]
    by_cases hc : contains ALLOWED_ACTIONS command.action = true
    · have hlegal : command.action = "up" ∨ command.action = "down"
          ∨ (command.action = "restart" ∧ command.target = "power") := by
        rcases ha.mp hc with h1 | h2
        · exact Or.inl h1
        · exact Or.inr (Or.inl h2)
      rw [if_pos hc]
      exact ⟨⟨fun _ => hlegal, fun _ => rfl⟩, fun hn => absurd hlegal hn⟩
    · have hillegal : ¬ (command.action = "up" ∨ command.action = "down"
          ∨ (command.action = "restart" ∧ command.target = "power")) := by
        rintro (h1 | h2 | ⟨_, h3⟩)
        · exact hc (ha.mpr (Or.inl h1))
        · exact hc (ha.mpr (Or.inr h2))
        · exact ht h3
      rw [if_neg hc]
      refine ⟨⟨fun heq => ?_, fun hl => absurd hl hillegal⟩, fun _ => rfl⟩
      simp at heq

/-- Witness for C1: `restart` on the `power` relay of `d1` is accepted. -/
theorem is_command_correct_action_legality_witness :
    (∃ d ∈ [Device.mk "host" "d1" "power" "K1", Device.mk "host" "d2" "boot_mode" "K2"],
        d.NAME = (Command.mk "power" "restart" "d1").device_name
          ∧ d.TARGET = (Command.mk "power" "restart" "d1").target)
    ∧ is_command_correct (Command.mk "power" "restart" "d1")
        [Device.mk "host" "d1" "power" "K1", Device.mk "host" "d2" "boot_mode" "K2"]
        = (true, none) :=
  ⟨⟨Device.mk "host" "d1" "power" "K1", by simp, rfl, rfl⟩,
    (is_command_correct_action_legality
      [Device.mk "host" "d1" "power" "K1", Device.mk "host" "d2" "boot_mode" "K2"]
      (Command.mk "power" "restart" "d1")
      ⟨Device.mk "host" "d1" "power" "K1", by simp, rfl, rfl⟩).1.mpr
      (Or.inr (Or.inr ⟨rfl, rfl⟩))⟩

/-- C2: when no device of the table has the command's device name,
`is_command_correct` returns `false` with the error `Device '<name>' is not defined`,
whatever the target and the action are. -/
theorem is_command_correct_device_not_found (devices : List Device) (command : Command)
    (h : ∀ d ∈ devices, d.NAME ≠ command.device_name) :
    is_command_correct command devices
      = (false, some ("Device '" ++ command.device_name ++ "' is not defined")) := by
  have hname : (get_devices_by_name devices command.device_name).length = 0 :=
    (get_devices_by_name_length_eq_zero_iff devices command.device_name).mpr h
  unfold is_command_correct
  simp only [hname, if_true]

/-- Witness for C2: an unknown device with an illegal action reports the device. -/
theorem is_command_correct_device_not_found_witness :
    (∀ d ∈ [Device.mk "host" "d1" "power" "K1", Device.mk "host" "d2" "boot_mode" "K2"],
        d.NAME ≠ (Command.mk "boot_mode" "skip" "d3").device_name)
    ∧ is_command_correct (Command.mk "boot_mode" "skip" "d3")
        [Device.mk "host" "d1" "power" "K1", Device.mk "host" "d2" "boot_mode" "K2"]
        = (false, some "Device 'd3' is not defined") :=
  ⟨by decide,
    is_command_correct_device_not_found
      [Device.mk "host" "d1" "power" "K1", Device.mk "host" "d2" "boot_mode" "K2"]
      (Command.mk "boot_mode" "skip" "d3") (by decide)⟩

/-- C3: when some device has the command's name but none has both its name and its
target, `is_command_correct` returns `false` with the error `no applicable device`,
whatever the action is. -/
theorem is_command_correct_no_applicable_device (devices : List Device) (command : Command)
    (hname : ∃ d ∈ devices, d.NAME = command.device_name)
    (hpair : ∀ d ∈ devices, ¬ (d.NAME = command.device_name ∧ d.TARGET = command.target)) :
    is_command_correct command devices = (false, some "no applicable device") := by
  have hlen : ¬ (get_devices_by_name devices command.device_name).length = 0 := by
    rw [get_devices_by_name_length_eq_zero_iff]
    obtain ⟨d, hd, hn⟩ := hname
    intro hall
    exact hall d hd hn
  have hres := get_device_for_command_none devices command hpair
  unfold is_command_correct
  simp [hlen, hres]

/-- Witness for C3: `d1` exists for `power` only; `boot_mode` with an illegal action is
reported as not applicable. -/
theorem is_command_correct_no_applicable_device_witness :
    (∃ d ∈ [Device.mk "host" "d1" "power" "K1", Device.mk "host" "d2" "boot_mode" "K2"],
        d.NAME = (Command.mk "boot_mode" "skip" "d1").device_name)
    ∧ (∀ d ∈ [Device.mk "host" "d1" "power" "K1", Device.mk "host" "d2" "boot_mode" "K2"],
        ¬ (d.NAME = (Command.mk "boot_mode" "skip" "d1").device_name
          ∧ d.TARGET = (Command.mk "boot_mode" "skip" "d1").target))
    ∧ is_command_correct (Command.mk "boot_mode" "skip" "d1")
        [Device.mk "host" "d1" "power" "K1", Device.mk "host" "d2" "boot_mode" "K2"]
        = (false, some "no applicable device") :=
  ⟨by decide, by decide,
    is_command_correct_no_applicable_device
      [Device.mk "host" "d1" "power" "K1", Device.mk "host" "d2" "boot_mode" "K2"]
      (Command.mk "boot_mode" "skip" "d1") (by decide) (by decide)⟩

/-! ## Resolution: `get_device_for_command` -/

/-- C4: `get_device_for_command` returns, with a nil error, the first record in table
order that has the command's name and target (so it succeeds whenever such a record
exists, duplicates included); it returns `Device{}` with the error
`no applicable device` exactly when no record has that name and target; and the
command's action does not influence the result. -/
theorem get_device_for_command_first_match (devices : List Device) (command : Command) :
    (∀ pre d post, devices = pre ++ d :: post
        → (∀ x ∈ pre, ¬ (x.NAME = command.device_name ∧ x.TARGET = command.target))
        → (d.NAME = command.device_name ∧ d.TARGET = command.target)
        → get_device_for_command devices command = (d, none))
    ∧ ((∃ x ∈ devices, x.NAME = command.device_name ∧ x.TARGET = command.target)
        → ∃ d ∈ devices, (d.NAME = command.device_name ∧ d.TARGET = command.target)
            ∧ get_device_for_command devices command = (d, none))
    ∧ (get_device_for_command devices command = (Device.empty, some "no applicable device")
        ↔ ∀ x ∈ devices, ¬ (x.NAME = command.device_name ∧ x.TARGET = command.target))
    ∧ (∀ action, get_device_for_command devices { command with action := action }
        = get_device_for_command devices command) := by
  refine ⟨?_, ?_, ?_, ?_⟩
  · intro pre d post hsplit hpre hd
    rw [hsplit]
    exact get_device_for_command_split pre post d command hpre hd
  · exact get_device_for_command_exists devices command
  · constructor
    · intro h x hx hp
      have hnone : (get_device_for_command devices command).2 = none :=
        (get_device_for_command_err_none_iff devices command).mpr ⟨x, hx, hp⟩
      rw [h] at hnone
      simp at hnone
    · exact get_device_for_command_none devices command
  · intro action
    rfl

/-! ## Letter case -/

/-- C5, counterexample: against the table `[{h, DEVICE1, POWER, /c/K1}]` the
lower-cased command `(power, up, device1)`, whose name and target are those of the
record up to letter case, is not resolved: `get_device_for_command` reports
`no applicable device` and `is_command_correct` reports the device as not defined. -/
theorem resolution_raw_table_counterexample :
    Device.mk "h" "DEVICE1" "POWER" "/c/K1" ∈ [Device.mk "h" "DEVICE1" "POWER" "/c/K1"]
    ∧ parce_cmd_args_command asciiLower "power" "up" "device1"
        = Command.mk (asciiLower "POWER") "up" (asciiLower "DEVICE1")
    ∧ get_device_for_command [Device.mk "h" "DEVICE1" "POWER" "/c/K1"]
        (parce_cmd_args_command asciiLower "power" "up" "device1")
        = (Device.empty, some "no applicable device")
    ∧ is_command_correct (parce_cmd_args_command asciiLower "power" "up" "device1")
        [Device.mk "h" "DEVICE1" "POWER" "/c/K1"]
        = (false, some "Device 'device1' is not defined") := by
  decide

/-- C5, amended: the lookup compares strings exactly, so it finds a record `d` from
any spelling of its name and target once `d` itself is stored in lower case (as every
record is after `read_stand_config`): the lower-cased command is then resolved by
`get_device_for_command` to a record of the table with the name and target of `d`,
and `is_command_correct` accepts it with action `up`. -/
theorem resolution_lower_case_record (lower : String → String) (devices : List Device)
    (d : Device) (target action name : String)
    (hd : d ∈ devices)
    (hname : lower d.NAME = d.NAME) (htarget : lower d.TARGET = d.TARGET)
    (hn : lower name = lower d.NAME) (ht : lower target = lower d.TARGET) :
    (∃ e ∈ devices, e.NAME = d.NAME ∧ e.TARGET = d.TARGET
        ∧ get_device_for_command devices (Command.mk (lower target) action (lower name))
            = (e, none))
    ∧ is_command_correct (Command.mk (lower target) "up" (lower name)) devices
        = (true, none) := by
  have hex : ∀ a : String,
      ∃ x ∈ devices, x.NAME = (Command.mk (lower target) a (lower name)).device_name
        ∧ x.TARGET = (Command.mk (lower target) a (lower name)).target := by
    intro a
    exact ⟨d, hd, by simp [hn, hname], by simp [ht, htarget]⟩
  constructor
  · obtain ⟨e, he, hm, hres⟩ :=
      get_device_for_command_exists devices
        (Command.mk (lower target) action (lower name)) (hex action)
    refine ⟨e, he, ?_, ?_, hres⟩
    · rw [hm.1]; simp [hn, hname]
    · rw [hm.2]; simp [ht, htarget]
  · exact is_command_correct_accepts devices
      (Command.mk (lower target) "up" (lower name)) (hex "up") (Or.inl rfl)

/-- Witness for C5 amended: the record stored as `device1`/`power` is found from the
arguments `POWER up Device1`. -/
theorem resolution_lower_case_record_witness :
    (∃ e ∈ [Device.mk "h" "device1" "power" "/c/K1"],
        e.NAME = "device1" ∧ e.TARGET = "power"
        ∧ get_device_for_command [Device.mk "h" "device1" "power" "/c/K1"]
            (Command.mk (asciiLower "POWER") "up" (asciiLower "Device1")) = (e, none))
    ∧ is_command_correct (Command.mk (asciiLower "POWER") "up" (asciiLower "Device1"))
        [Device.mk "h" "device1" "power" "/c/K1"] = (true, none) :=
  resolution_lower_case_record asciiLower [Device.mk "h" "device1" "power" "/c/K1"]
    (Device.mk "h" "device1" "power" "/c/K1") "POWER" "up" "Device1"
    (by simp) (by decide) (by decide) (by decide) (by decide)

/-- C6, counterexample: with two records for `(d1, power)` and `d` the second one, the
normalised table and the command from `POWER up D1` pass validation, but the lookup
returns the first record, whose host and channel are not those of `d`. -/
theorem normalized_resolution_counterexample :
    Device.mk "h2" "d1" "power" "K2"
        ∈ [Device.mk "h1" "d1" "power" "K1", Device.mk "h2" "d1" "power" "K2"]
    ∧ is_command_correct (parce_cmd_args_command asciiLower "POWER" "up" "D1")
        (read_stand_config_normalize asciiLower
          [Device.mk "h1" "d1" "power" "K1", Device.mk "h2" "d1" "power" "K2"])
        = (true, none)
    ∧ get_device_for_command
        (read_stand_config_normalize asciiLower
          [Device.mk "h1" "d1" "power" "K1", Device.mk "h2" "d1" "power" "K2"])
        (parce_cmd_args_command asciiLower "POWER" "up" "D1")
        = (Device.mk "h1" "d1" "power" "K1", none)
    ∧ (get_device_for_command
        (read_stand_config_normalize asciiLower
          [Device.mk "h1" "d1" "power" "K1", Device.mk "h2" "d1" "power" "K2"])
        (parce_cmd_args_command asciiLower "POWER" "up" "D1")).1
        ≠ Device.mk "h2" (asciiLower "d1") (asciiLower "power") "K2" := by
  decide

/-- C6, amended: for a table `T`, a record `d` of `T`, any spelling of `d.TARGET` and
`d.NAME` and any spelling of an action legal for that target, the command built by
`parce_cmd_args` is accepted by `is_command_correct` on the normalised table, and
`get_device_for_command` returns, without error, the normalised form of the first
record `e` of `T` whose lower-cased name and target are those of `d`: name and target
are the lower-cased ones of `d`, host and channel are those of `e`.  They are those of
`d` whenever `d` is the first record of `T` with that lower-cased pair. -/
theorem normalized_resolution_first_record (lower : String → String) (devices : List Device)
    (d : Device) (target action name : String)
    (hd : d ∈ devices)
    (ht : lower target = lower d.TARGET) (hn : lower name = lower d.NAME)
    (ha : lower action = "up" ∨ lower action = "down"
      ∨ (lower action = "restart" ∧ lower target = "power")) :
    is_command_correct (parce_cmd_args_command lower target action name)
        (read_stand_config_normalize lower devices) = (true, none)
    ∧ (∃ pre e post, devices = pre ++ e :: post
        ∧ (∀ x ∈ pre, ¬ (lower x.NAME = lower d.NAME ∧ lower x.TARGET = lower d.TARGET))
        ∧ lower e.NAME = lower d.NAME ∧ lower e.TARGET = lower d.TARGET
        ∧ get_device_for_command (read_stand_config_normalize lower devices)
            (parce_cmd_args_command lower target action name)
            = (Device.mk e.WB_MQTT_HOST (lower d.NAME) (lower d.TARGET) e.CHANNEL, none))
    ∧ (∀ pre post, devices = pre ++ d :: post
        → (∀ x ∈ pre, ¬ (lower x.NAME = lower d.NAME ∧ lower x.TARGET = lower d.TARGET))
        → get_device_for_command (read_stand_config_normalize lower devices)
            (parce_cmd_args_command lower target action name)
            = (Device.mk d.WB_MQTT_HOST (lower d.NAME) (lower d.TARGET) d.CHANNEL, none)) := by
  have hcn : (parce_cmd_args_command lower target action name).device_name = lower d.NAME := hn
  have hct : (parce_cmd_args_command lower target action name).target = lower d.TARGET := ht
  refine ⟨?_, ?_, ?_⟩
  · apply is_command_correct_accepts
    · refine ⟨Device.mk d.WB_MQTT_HOST (lower d.NAME) (lower d.TARGET) d.CHANNEL, ?_,
        hcn.symm, hct.symm⟩
      unfold read_stand_config_normalize
      exact List.mem_map.mpr ⟨d, hd, rfl⟩
    · exact ha
  · obtain ⟨pre, e, post, hsplit, hpre, he⟩ :=
      exists_first_split
        (fun x => lower x.NAME = lower d.NAME ∧ lower x.TARGET = lower d.TARGET) devices
        ⟨d, hd, rfl, rfl⟩
    refine ⟨pre, e, post, hsplit, hpre, he.1, he.2, ?_⟩
    rw [hsplit, ← he.1, ← he.2]
    apply get_device_for_command_normalize_split
    · intro x hx
      rw [hcn, hct]
      exact hpre x hx
    · rw [hcn, he.1]
    · rw [hct, he.2]
  · intro pre post hsplit hpre
    rw [hsplit]
    apply get_device_for_command_normalize_split
    · intro x hx
      rw [hcn, hct]
      exact hpre x hx
    · exact hcn.symm
    · exact hct.symm

/-- Witness for C6 amended: the second record is the first one for `(d2, boot_mode)`
and is returned, normalised, for the arguments `Boot_Mode DOWN D2`. -/
theorem normalized_resolution_first_record_witness :
    Device.mk "h2" "D2" "BOOT_MODE" "K2"
        ∈ [Device.mk "h1" "D1" "POWER" "K1", Device.mk "h2" "D2" "BOOT_MODE" "K2"]
    ∧ get_device_for_command
        (read_stand_config_normalize asciiLower
          [Device.mk "h1" "D1" "POWER" "K1", Device.mk "h2" "D2" "BOOT_MODE" "K2"])
        (parce_cmd_args_command asciiLower "Boot_Mode" "DOWN" "d2")
        = (Device.mk "h2" (asciiLower "D2") (asciiLower "BOOT_MODE") "K2", none) :=
  ⟨by simp,
    (normalized_resolution_first_record asciiLower
      [Device.mk "h1" "D1" "POWER" "K1", Device.mk "h2" "D2" "BOOT_MODE" "K2"]
      (Device.mk "h2" "D2" "BOOT_MODE" "K2") "Boot_Mode" "DOWN" "d2"
      (by simp) (by decide) (by decide) (by decide)).2.2
      [Device.mk "h1" "D1" "POWER" "K1"] [] rfl (by decide)⟩

/-! ## Execution: `execute_command` -/

/-- C7: for a command with action `restart` whose device resolves to `d` and whose
connect succeeds, the run of `execute_command` is exactly: connect, publish `0` to
`d.CHANNEL`, sleep 1 s, sleep 7 s, publish `1` to `d.CHANNEL`, sleep 1 s, disconnect,
and the result is nil.  So exactly two publishes are issued, `0` before `1`, on the
same channel, with 8 s of sleep and nothing else between them. -/
theorem execute_command_restart_trace (client : Broker) (devices : List Device)
    (command : Command) (d : Device)
    (haction : command.action = "restart")
    (hres : get_device_for_command devices command = (d, none))
    (hconn : (client.connect d.WB_MQTT_HOST).Error = none) :
    (∃ r0 r1, execute_command client command devices
        = ([Event.Connect d.WB_MQTT_HOST none,
            Event.Publish d.CHANNEL 0 false "0" r0, Event.Sleep 1, Event.Sleep 7,
            Event.Publish d.CHANNEL 0 false "1" r1, Event.Sleep 1,
            Event.Disconnect 250], none))
    ∧ publishes (execute_command client command devices).1
        = [(d.CHANNEL, "0"), (d.CHANNEL, "1")] := by
  have hrun : execute_command client command devices
      = ([Event.Connect d.WB_MQTT_HOST none,
          Event.Publish d.CHANNEL 0 false "0"
            (client.publish [Event.Connect d.WB_MQTT_HOST none] d.CHANNEL "0").Error,
          Event.Sleep 1, Event.Sleep 7,
          Event.Publish d.CHANNEL 0 false "1"
            (client.publish
              [Event.Connect d.WB_MQTT_HOST none,
                Event.Publish d.CHANNEL 0 false "0"
                  (client.publish [Event.Connect d.WB_MQTT_HOST none] d.CHANNEL "0").Error,
                Event.Sleep 1, Event.Sleep 7] d.CHANNEL "1").Error,
          Event.Sleep 1, Event.Disconnect 250], none) := by
    unfold execute_command
    simp only [hres, hconn, Token.Wait, publish, haction]
    simp
  refine ⟨⟨_, _, hrun⟩, ?_⟩
  rw [hrun]
  simp [publishes]

/-- Witness for C7: `restart` of `d1` on a broker that accepts everything. -/
theorem execute_command_restart_trace_witness :
    execute_command okBroker (Command.mk "power" "restart" "d1")
        [Device.mk "h" "d1" "power" "K1"]
      = ([Event.Connect "h" none, Event.Publish "K1" 0 false "0" none, Event.Sleep 1,
          Event.Sleep 7, Event.Publish "K1" 0 false "1" none, Event.Sleep 1,
          Event.Disconnect 250], none)
    ∧ publishes (execute_command okBroker (Command.mk "power" "restart" "d1")
        [Device.mk "h" "d1" "power" "K1"]).1 = [("K1", "0"), ("K1", "1")] :=
  ⟨by decide,
    (execute_command_restart_trace okBroker [Device.mk "h" "d1" "power" "K1"]
      (Command.mk "power" "restart" "d1") (Device.mk "h" "d1" "power" "K1")
      rfl (by decide) rfl).2⟩

/-- C8: when `d` is the first record of the table with the command's name and target
and the connect succeeds, `execute_command` with action `up` performs: connect, one
publish of `1` to `d.CHANNEL`, sleep 1 s, disconnect, and returns nil; with action
`down` the same with payload `0`. -/
theorem execute_command_up_down_trace (client : Broker) (pre post : List Device)
    (command : Command) (d : Device)
    (hpre : ∀ x ∈ pre, ¬ (x.NAME = command.device_name ∧ x.TARGET = command.target))
    (hd : d.NAME = command.device_name ∧ d.TARGET = command.target)
    (hconn : (client.connect d.WB_MQTT_HOST).Error = none) :
    (command.action = "up" →
      (∃ r, execute_command client command (pre ++ d :: post)
          = ([Event.Connect d.WB_MQTT_HOST none, Event.Publish d.CHANNEL 0 false "1" r,
              Event.Sleep 1, Event.Disconnect 250], none))
      ∧ publishes (execute_command client command (pre ++ d :: post)).1
          = [(d.CHANNEL, "1")])
    ∧ (command.action = "down" →
      (∃ r, execute_command client command (pre ++ d :: post)
          = ([Event.Connect d.WB_MQTT_HOST none, Event.Publish d.CHANNEL 0 false "0" r,
              Event.Sleep 1, Event.Disconnect 250], none))
      ∧ publishes (execute_command client command (pre ++ d :: post)).1
          = [(d.CHANNEL, "0")]) := by
  have hres := get_device_for_command_split pre post d command hpre hd
  constructor
  · intro haction
    have hrun : execute_command client command (pre ++ d :: post)
        = ([Event.Connect d.WB_MQTT_HOST none,
            Event.Publish d.CHANNEL 0 false "1"
              (client.publish [Event.Connect d.WB_MQTT_HOST none] d.CHANNEL "1").Error,
            Event.Sleep 1, Event.Disconnect 250], none) := by
      unfold execute_command
      simp only [hres, hconn, Token.Wait, publish, haction]
      simp
    refine ⟨⟨_, hrun⟩, ?_⟩
    rw [hrun]
    simp [publishes]
  · intro haction
    have hrun : execute_command client command (pre ++ d :: post)
        = ([Event.Connect d.WB_MQTT_HOST none,
            Event.Publish d.CHANNEL 0 false "0"
              (client.publish [Event.Connect d.WB_MQTT_HOST none] d.CHANNEL "0").Error,
            Event.Sleep 1, Event.Disconnect 250], none) := by
      unfold execute_command
      simp only [hres, hconn, Token.Wait, publish, haction]
      simp
    refine ⟨⟨_, hrun⟩, ?_⟩
    rw [hrun]
    simp [publishes]

/-- Witness for C8: `down` on the `boot_mode` relay of `d1`, the second record. -/
theorem execute_command_up_down_trace_witness :
    publishes (execute_command okBroker (Command.mk "boot_mode" "down" "d1")
        ([Device.mk "h" "d1" "power" "K1"]
          ++ Device.mk "h" "d1" "boot_mode" "K2" :: [Device.mk "h" "d2" "boot_mode" "K2"])).1
      = [("K2", "0")] :=
  ((execute_command_up_down_trace okBroker [Device.mk "h" "d1" "power" "K1"]
      [Device.mk "h" "d2" "boot_mode" "K2"] (Command.mk "boot_mode" "down" "d1")
      (Device.mk "h" "d1" "boot_mode" "K2") (by decide) (by decide) rfl).2 rfl).2

/-- C9, counterexample: on a broker that accepts the connect and the first publish
and rejects the second, `restart` of `d1` issues both publishes, the second one fails,
and `execute_command` still returns nil. -/
theorem execute_command_publish_failure_counterexample :
    execute_command secondFailsBroker (Command.mk "power" "restart" "d1")
        [Device.mk "h" "d1" "power" "K1"]
      = ([Event.Connect "h" none, Event.Publish "K1" 0 false "0" none, Event.Sleep 1,
          Event.Sleep 7, Event.Publish "K1" 0 false "1" (some "publish failed"),
          Event.Sleep 1, Event.Disconnect 250], none)
    ∧ publishFailed (execute_command secondFailsBroker (Command.mk "power" "restart" "d1")
        [Device.mk "h" "d1" "power" "K1"]).1 = true
    ∧ (execute_command secondFailsBroker (Command.mk "power" "restart" "d1")
        [Device.mk "h" "d1" "power" "K1"]).2 = none := by
  decide

/-- C9, amended: the outcome of a publish is not inspected.  For every broker, table
and command whose connect succeeded and whose action is `up`, `down` or `restart`,
`execute_command` returns nil whatever the broker reports for the publishes, and no
publish is retried: the publishes issued are exactly the one of `up` or `down`, or the
two of `restart`, on the channel of the device looked up. -/
theorem execute_command_ignores_publish_result (client : Broker) (devices : List Device)
    (command : Command)
    (hconn : (client.connect
      (get_device_for_command devices command).1.WB_MQTT_HOST).Error = none)
    (haction : command.action = "up" ∨ command.action = "down"
      ∨ command.action = "restart") :
    (execute_command client command devices).2 = none
    ∧ publishes (execute_command client command devices).1
        = (if command.action = "up" then
            [((get_device_for_command devices command).1.CHANNEL, "1")]
          else if command.action = "down" then
            [((get_device_for_command devices command).1.CHANNEL, "0")]
          else
            [((get_device_for_command devices command).1.CHANNEL, "0"),
              ((get_device_for_command devices command).1.CHANNEL, "1")]) := by
  rcases haction with h | h | h
  · unfold execute_command
    simp only [hconn, Token.Wait, publish, h]
    simp [publishes]
  · unfold execute_command
    simp only [hconn, Token.Wait, publish, h]
    simp [publishes]
  · unfold execute_command
    simp only [hconn, Token.Wait, publish, h]
    simp [publishes]

/-- Witness for C9 amended: `up` on a broker that rejects every publish returns nil
after a single publish. -/
theorem execute_command_ignores_publish_result_witness :
    (execute_command lossyBroker (Command.mk "power" "up" "d1")
        [Device.mk "h" "d1" "power" "K1"]).2 = none
    ∧ publishes (execute_command lossyBroker (Command.mk "power" "up" "d1")
        [Device.mk "h" "d1" "power" "K1"]).1 = [("K1", "1")] :=
  execute_command_ignores_publish_result lossyBroker [Device.mk "h" "d1" "power" "K1"]
    (Command.mk "power" "up" "d1") rfl (Or.inl rfl)

/-- C10, failing input: with a successful connect and the action `skip`,
`execute_command` returns the unknown-action error after the connect alone: the run
holds no `Disconnect`, while the same command with action `up` ends with one. -/
theorem execute_command_unknown_action_keeps_connection :
    execute_command okBroker (Command.mk "power" "skip" "d1")
        [Device.mk "h" "d1" "power" "K1"]
      = ([Event.Connect "h" none], some "Action skip is unknown")
    ∧ disconnects (execute_command okBroker (Command.mk "power" "skip" "d1")
        [Device.mk "h" "d1" "power" "K1"]).1 = false
    ∧ disconnects (execute_command okBroker (Command.mk "power" "up" "d1")
        [Device.mk "h" "d1" "power" "K1"]).1 = true := by
  decide

/-! ## Loading: `parse_json_config` -/

/-- The first loop of `parse_json_config` leaves the slice as it was. -/
theorem foldl_keep_table (f : Device → Device) (devices table : List Device) :
    devices.foldl (fun (t : List Device) device => let _device : Device := f device; t) table
      = table := by
  induction devices generalizing table with
  | nil => rfl
  | cons d rest ih =>
    rw [List.foldl_cons]
    exact ih table

/-- The check loop finds a record exactly when some record has an empty field. -/
theorem incorrect_device_detected_iff (devices : List Device) :
    incorrect_device_detected devices = true
      ↔ ∃ d ∈ devices, d.WB_MQTT_HOST = "" ∨ d.NAME = "" ∨ d.TARGET = "" ∨ d.CHANNEL = "" := by
  induction devices with
  | nil => simp [incorrect_device_detected]
  | cons d rest ih =>
    unfold incorrect_device_detected
    by_cases hd : d.WB_MQTT_HOST = "" ∨ d.NAME = "" ∨ d.TARGET = "" ∨ d.CHANNEL = ""
    · rw [if_pos hd]
      simp only [true_iff]
      exact ⟨d, List.mem_cons_self d rest, hd⟩
    · rw [if_neg hd, ih]
      constructor
      · rintro ⟨x, hx, hp⟩
        exact ⟨x, List.mem_cons_of_mem d hx, hp⟩
      · rintro ⟨x, hx, hp⟩
        rcases List.mem_cons.mp hx with rfl | hx'
        · exact absurd hp hd
        · exact ⟨x, hx', hp⟩

/-- After a successful decode, `parse_json_config` is the check loop alone. -/
theorem parse_json_config_of_decoded
    (json_Unmarshal : List UInt8 → List Device × Option String) (lower : String → String)
    (file_data : List UInt8) (devices : List Device)
    (hdec : json_Unmarshal file_data = (devices, none)) :
    parse_json_config json_Unmarshal lower file_data
      = if incorrect_device_detected devices = true then
          ([], some "incorrect device detected")
        else (devices, none) := by
  unfold parse_json_config
  simp only [hdec, ne_eq, not_true_eq_false, if_false]
  rw [foldl_keep_table
    (fun device => { device with NAME := lower device.NAME, TARGET := lower device.TARGET })]

/-- C11: for a successfully decoded list of records, `parse_json_config` returns an
error with a nil table exactly when some record has an empty `WB_MQTT_HOST`, `NAME`,
`TARGET` or `CHANNEL`; the error is then `incorrect device detected`.  Otherwise it
returns the decoded table with a nil error. -/
theorem parse_json_config_rejects_empty_field
    (json_Unmarshal : List UInt8 → List Device × Option String) (lower : String → String)
    (file_data : List UInt8) (devices : List Device)
    (hdec : json_Unmarshal file_data = (devices, none)) :
    ((∃ e, parse_json_config json_Unmarshal lower file_data = ([], some e))
        ↔ ∃ d ∈ devices,
            d.WB_MQTT_HOST = "" ∨ d.NAME = "" ∨ d.TARGET = "" ∨ d.CHANNEL = "")
    ∧ ((∃ d ∈ devices, d.WB_MQTT_HOST = "" ∨ d.NAME = "" ∨ d.TARGET = "" ∨ d.CHANNEL = "")
        → parse_json_config json_Unmarshal lower file_data
            = ([], some "incorrect device detected"))
    ∧ (¬ (∃ d ∈ devices, d.WB_MQTT_HOST = "" ∨ d.NAME = "" ∨ d.TARGET = "" ∨ d.CHANNEL = "")
        → parse_json_config json_Unmarshal lower file_data = (devices, none)) := by
  have hval := parse_json_config_of_decoded json_Unmarshal lower file_data devices hdec
  have hiff := incorrect_device_detected_iff devices
  refine ⟨⟨?_, ?_⟩, ?_, ?_⟩
  · rintro ⟨e, he⟩
    by_contra hno
    have hfalse : ¬ incorrect_device_detected devices = true := fun h => hno (hiff.mp h)
    rw [hval, if_neg hfalse] at he
    simp at he
  · intro hex
    refine ⟨"incorrect device detected", ?_⟩
    rw [hval, if_pos (hiff.mpr hex)]
  · intro hex
    rw [hval, if_pos (hiff.mpr hex)]
  · intro hno
    have hfalse : ¬ incorrect_device_detected devices = true := fun h => hno (hiff.mp h)
    rw [hval, if_neg hfalse]

/-- Witness for C11: a single record decoded without a `CHANNEL` is rejected. -/
theorem parse_json_config_rejects_empty_field_witness :
    parse_json_config
        (fun _ => ([Device.mk "wiren-board.test-stand" "DEVICE1" "POWER" ""], none))
        asciiLower []
      = ([], some "incorrect device detected") :=
  (parse_json_config_rejects_empty_field
    (fun _ => ([Device.mk "wiren-board.test-stand" "DEVICE1" "POWER" ""], none))
    asciiLower [] [Device.mk "wiren-board.test-stand" "DEVICE1" "POWER" ""] rfl).2.1
    ⟨Device.mk "wiren-board.test-stand" "DEVICE1" "POWER" "", by simp, by decide⟩

/-- C12: when every decoded record has four non-empty fields, `parse_json_config`
returns the decoded list itself with a nil error: one device per record, in input
order, every field as decoded, so `NAME` and `TARGET` keep their letter case. -/
theorem parse_json_config_keeps_records
    (json_Unmarshal : List UInt8 → List Device × Option String) (lower : String → String)
    (file_data : List UInt8) (devices : List Device)
    (hdec : json_Unmarshal file_data = (devices, none))
    (hfull : ∀ d ∈ devices,
      d.WB_MQTT_HOST ≠ "" ∧ d.NAME ≠ "" ∧ d.TARGET ≠ "" ∧ d.CHANNEL ≠ "") :
    parse_json_config json_Unmarshal lower file_data = (devices, none)
    ∧ (parse_json_config json_Unmarshal lower file_data).1.length = devices.length
    ∧ (∀ i (h : i < devices.length),
        (parse_json_config json_Unmarshal lower file_data).1.get? i
          = some (devices.get ⟨i, h⟩)) := by
  have hfalse : ¬ incorrect_device_detected devices = true := by
    rw [incorrect_device_detected_iff]
    rintro ⟨d, hd, h1 | h2 | h3 | h4⟩
    · exact (hfull d hd).1 h1
    · exact (hfull d hd).2.1 h2
    · exact (hfull d hd).2.2.1 h3
    · exact (hfull d hd).2.2.2 h4
  have hval : parse_json_config json_Unmarshal lower file_data = (devices, none) := by
    rw [parse_json_config_of_decoded json_Unmarshal lower file_data devices hdec,
      if_neg hfalse]
  refine ⟨hval, by rw [hval], ?_⟩
  intro i h
  rw [hval]
  exact List.get?_eq_get h

/-- Witness for C12: the record of `TestParseOneDevice` comes back as written, with
`DEVICE1` and `POWER` in upper case. -/
theorem parse_json_config_keeps_records_witness :
    parse_json_config
        (fun _ => ([Device.mk "wiren-board.test-stand" "DEVICE1" "POWER"
          "/devices/wb-mr3_17/controls/K1/on"], none))
        asciiLower []
      = ([Device.mk "wiren-board.test-stand" "DEVICE1" "POWER"
          "/devices/wb-mr3_17/controls/K1/on"], none) :=
  (parse_json_config_keeps_records
    (fun _ => ([Device.mk "wiren-board.test-stand" "DEVICE1" "POWER"
      "/devices/wb-mr3_17/controls/K1/on"], none))
    asciiLower []
    [Device.mk "wiren-board.test-stand" "DEVICE1" "POWER" "/devices/wb-mr3_17/controls/K1/on"]
    rfl (by decide)).1

/-! ## Help request, name filter and consistency of the validator -/

/-- C17: `is_help_request` is true exactly when the lower-cased argument is `-h`,
`--help` or `?`; with the ASCII case mapping `-H`, `--HELP` and `--Help` are accepted
and `help`, `-x` and the empty argument are not. -/
theorem is_help_request_iff :
    (∀ (lower : String → String) (s : String),
        is_help_request lower s = true
          ↔ lower s = "-h" ∨ lower s = "--help" ∨ lower s = "?")
    ∧ is_help_request asciiLower "-H" = true
    ∧ is_help_request asciiLower "--HELP" = true
    ∧ is_help_request asciiLower "--Help" = true
    ∧ is_help_request asciiLower "?" = true
    ∧ is_help_request asciiLower "help" = false
    ∧ is_help_request asciiLower "-x" = false
    ∧ is_help_request asciiLower "" = false := by
  refine ⟨?_, by decide, by decide, by decide, by decide, by decide, by decide, by decide⟩
  intro lower s
  unfold is_help_request
  by_cases h : lower s = "-h" ∨ lower s = "--help" ∨ lower s = "?"
  · simp only [if_pos h, true_iff]
    exact h
  · simp only [if_neg h]
    simp [h]

/-- C19: `get_devices_by_name` is the table filtered by `NAME = name`: it keeps table
order, holds every device as often as the table holds it when its `NAME` is the name
and not at all otherwise, and is empty exactly when no device has that `NAME`.  For
`[d1/POWER, d1/BOOT_MODE, d2/BOOT_MODE]` and `d1` it returns the first two records. -/
theorem get_devices_by_name_exact (devices : List Device) (name : String) :
    get_devices_by_name devices name
        = devices.filter (fun device => decide (device.NAME = name))
    ∧ (get_devices_by_name devices name).Sublist devices
    ∧ (∀ d, (get_devices_by_name devices name).count d
        = if d.NAME = name then devices.count d else 0)
    ∧ (get_devices_by_name devices name = [] ↔ ∀ d ∈ devices, d.NAME ≠ name)
    ∧ get_devices_by_name
        [Device.mk "host" "d1" "POWER" "K1", Device.mk "host" "d1" "BOOT_MODE" "K2",
          Device.mk "host" "d2" "BOOT_MODE" "K2"] "d1"
        = [Device.mk "host" "d1" "POWER" "K1", Device.mk "host" "d1" "BOOT_MODE" "K2"] := by
  have hfilter := get_devices_by_name_eq_filter devices name
  refine ⟨hfilter, ?_, ?_, ?_, by decide⟩
  · rw [hfilter]
    exact List.filter_sublist devices
  · intro d
    rw [hfilter]
    by_cases hd : d.NAME = name
    · rw [if_pos hd]
      exact List.count_filter (by simpa using hd)
    · rw [if_neg hd, List.count_eq_zero]
      intro hmem
      have := (List.mem_filter.mp hmem).2
      exact hd (by simpa using this)
  · rw [← List.length_eq_zero]
    exact get_devices_by_name_length_eq_zero_iff devices name

/-- Without a record of the command's name the validator reports the device. -/
theorem is_command_correct_no_name (devices : List Device) (command : Command)
    (h : ∀ d ∈ devices, d.NAME ≠ command.device_name) :
    is_command_correct command devices
      = (false, some ("Device '" ++ command.device_name ++ "' is not defined")) := by
  have hname : (get_devices_by_name devices command.device_name).length = 0 :=
    (get_devices_by_name_length_eq_zero_iff devices command.device_name).mpr h
  unfold is_command_correct
  simp only [hname, if_true]

/-- With the name present but no record for the target, the validator passes on the
error of the lookup. -/
theorem is_command_correct_no_pair (devices : List Device) (command : Command)
    (hname : ∃ d ∈ devices, d.NAME = command.device_name)
    (hpair : ∀ d ∈ devices, ¬ (d.NAME = command.device_name ∧ d.TARGET = command.target)) :
    is_command_correct command devices = (false, some "no applicable device") := by
  have hlen : ¬ (get_devices_by_name devices command.device_name).length = 0 := by
    rw [get_devices_by_name_length_eq_zero_iff]
    obtain ⟨d, hd, hn⟩ := hname
    intro hall
    exact hall d hd hn
  have hres := get_device_for_command_none devices command hpair
  unfold is_command_correct
  simp [hlen, hres]

/-- The three ways a command is rejected and the one way it is accepted. -/
theorem is_command_correct_cases (devices : List Device) (command : Command) :
    is_command_correct command devices
        = (false, some ("Device '" ++ command.device_name ++ "' is not defined"))
    ∨ is_command_correct command devices = (false, some "no applicable device")
    ∨ is_command_correct command devices
        = (false, some ("Action '" ++ command.action ++ "' is not supported"))
    ∨ (is_command_correct command devices = (true, none)
        ∧ (∃ d ∈ devices, d.NAME = command.device_name ∧ d.TARGET = command.target)
        ∧ (command.action = "up" ∨ command.action = "down"
          ∨ command.action = "restart")) := by
  by_cases hname : ∃ d ∈ devices, d.NAME = command.device_name
  · by_cases hpair : ∃ d ∈ devices, d.NAME = command.device_name ∧ d.TARGET = command.target
    · have hval := is_command_correct_of_match devices command hpair
      by_cases ht : command.target = "power"
      · rw [if_pos ht] at hval
        by_cases hc : contains (ALLOWED_ACTIONS ++ EXTRA_ACTIONS_FOR_POWER) command.action = true
        · rw [if_pos hc] at hval
          exact Or.inr (Or.inr (Or.inr ⟨hval, hpair, (contains_allowed_power _).mp hc⟩))
        · rw [if_neg hc] at hval
          exact Or.inr (Or.inr (Or.inl hval))
      · rw [if_neg ht] at hval
        by_cases hc : contains ALLOWED_ACTIONS command.action = true
        · rw [if_pos hc] at hval
          refine Or.inr (Or.inr (Or.inr ⟨hval, hpair, ?_⟩))
          rcases (contains_allowed _).mp hc with h1 | h2
          · exact Or.inl h1
          · exact Or.inr (Or.inl h2)
        · rw [if_neg hc] at hval
          exact Or.inr (Or.inr (Or.inl hval))
    · refine Or.inr (Or.inl (is_command_correct_no_pair devices command hname ?_))
      intro d hd hp
      exact hpair ⟨d, hd, hp⟩
  · refine Or.inl (is_command_correct_no_name devices command ?_)
    intro d hd hn
    exact hname ⟨d, hd, hn⟩

/-- C20: the boolean of `is_command_correct` is true exactly when its error is nil, so
the test `err == nil` and `!is_correct` of `parce_cmd_args` never holds, and
`parce_cmd_args` is the same function without its `unkown error` branch. -/
theorem is_command_correct_consistent (devices : List Device) (command : Command) :
    ((is_command_correct command devices).1 = true
        ↔ (is_command_correct command devices).2 = none)
    ∧ ¬ ((is_command_correct command devices).2 = none
        ∧ (is_command_correct command devices).1 = false)
    ∧ (∀ (lower : String → String) (args : List String),
        parce_cmd_args lower args devices
          = if args.length = 2 ∧ is_help_request lower (args.getD 1 "") = true then
              ParseOutcome.Exit 0 (generate_help_page lower devices)
            else if args.length ≠ 4 then
              ParseOutcome.Return Command.empty (some "expectes 3 arguments")
            else if (is_command_correct
                (parce_cmd_args_command lower (args.getD 1 "") (args.getD 2 "")
                  (args.getD 3 "")) devices).2 ≠ none then
              ParseOutcome.Return Command.empty
                (is_command_correct
                  (parce_cmd_args_command lower (args.getD 1 "") (args.getD 2 "")
                    (args.getD 3 "")) devices).2
            else
              ParseOutcome.Return
                (parce_cmd_args_command lower (args.getD 1 "") (args.getD 2 "")
                  (args.getD 3 "")) none) := by
  have hiff : ∀ c : Command, (is_command_correct c devices).1 = true
      ↔ (is_command_correct c devices).2 = none := by
    intro c
    rcases is_command_correct_cases devices c with h | h | h | ⟨h, _, _⟩ <;> rw [h] <;> simp
  refine ⟨hiff command, ?_, ?_⟩
  · rintro ⟨hnil, hfalse⟩
    have htrue := (hiff command).mpr hnil
    rw [hfalse] at htrue
    exact Bool.false_ne_true htrue
  · intro lower args
    unfold parce_cmd_args
    by_cases hhelp : args.length = 2 ∧ is_help_request lower (args.getD 1 "") = true
    · rw [if_pos hhelp, if_pos hhelp]
    · rw [if_neg hhelp, if_neg hhelp]
      by_cases hlen : args.length ≠ 4
      · rw [if_pos hlen, if_pos hlen]
      · rw [if_neg hlen, if_neg hlen]
        generalize parce_cmd_args_command lower (args.getD 1 "") (args.getD 2 "")
          (args.getD 3 "") = c
        by_cases herr : (is_command_correct c devices).2 ≠ none
        · rw [if_pos herr, if_pos herr]
        · have htrue := (hiff c).mpr (not_not.mp herr)
          have hbranch : ¬ (!(is_command_correct c devices).1) = true := by
            rw [htrue]
            decide
          rw [if_neg herr, if_neg herr, if_neg hbranch]

/-- A rejected command whose record is present was rejected for its action. -/
theorem is_command_correct_rejected_of_match (devices : List Device) (command : Command)
    (hpair : ∃ d ∈ devices, d.NAME = command.device_name ∧ d.TARGET = command.target)
    (hrej : (is_command_correct command devices).1 = false) :
    is_command_correct command devices
      = (false, some ("Action '" ++ command.action ++ "' is not supported")) := by
  have hval := is_command_correct_of_match devices command hpair
  by_cases ht : command.target = "power"
  · rw [if_pos ht] at hval
    by_cases hc : contains (ALLOWED_ACTIONS ++ EXTRA_ACTIONS_FOR_POWER) command.action = true
    · rw [if_pos hc] at hval
      rw [hval] at hrej
      exact absurd hrej (by decide)
    · rw [if_neg hc] at hval
      exact hval
  · rw [if_neg ht] at hval
    by_cases hc : contains ALLOWED_ACTIONS command.action = true
    · rw [if_pos hc] at hval
      rw [hval] at hrej
      exact absurd hrej (by decide)
    · rw [if_neg hc] at hval
      exact hval

/-! ## Validator and executor -/

/-- C18: a command accepted by `is_command_correct` is looked up successfully by
`execute_command` (the lookup gives a record of the table with the command's name and
target, with a nil error), its action is `up`, `down` or `restart`, and after a
successful connect `execute_command` returns nil.  Conversely, for an action outside
those three and a successful connect, `execute_command` returns the error
`Action <action> is unknown` after the connect alone, with no publish. -/
theorem validator_executor_agree (devices : List Device) (command : Command) :
    (is_command_correct command devices = (true, none) →
      (∃ d ∈ devices, d.NAME = command.device_name ∧ d.TARGET = command.target
        ∧ get_device_for_command devices command = (d, none))
      ∧ (command.action = "up" ∨ command.action = "down" ∨ command.action = "restart")
      ∧ (∀ client : Broker,
          (client.connect
            (get_device_for_command devices command).1.WB_MQTT_HOST).Error = none →
          (execute_command client command devices).2 = none))
    ∧ (∀ client : Broker,
        ¬ (command.action = "up" ∨ command.action = "down" ∨ command.action = "restart") →
        (client.connect
          (get_device_for_command devices command).1.WB_MQTT_HOST).Error = none →
        execute_command client command devices
            = ([Event.Connect (get_device_for_command devices command).1.WB_MQTT_HOST none],
                some ("Action " ++ command.action ++ " is unknown"))
          ∧ publishes (execute_command client command devices).1 = []) := by
  constructor
  · intro hok
    have hpl : (∃ d ∈ devices, d.NAME = command.device_name ∧ d.TARGET = command.target)
        ∧ (command.action = "up" ∨ command.action = "down"
          ∨ command.action = "restart") := by
      rcases is_command_correct_cases devices command with h | h | h | ⟨_, hp, hl⟩
      · rw [h] at hok
        simp at hok
      · rw [h] at hok
        simp at hok
      · rw [h] at hok
        simp at hok
      · exact ⟨hp, hl⟩
    obtain ⟨d, hd, hm, hres⟩ := get_device_for_command_exists devices command hpl.1
    refine ⟨⟨d, hd, hm.1, hm.2, hres⟩, hpl.2, ?_⟩
    intro client hconn
    rcases hpl.2 with h | h | h
    · unfold execute_command
      simp only [hconn, Token.Wait, publish, h]
      simp
    · unfold execute_command
      simp only [hconn, Token.Wait, publish, h]
      simp
    · unfold execute_command
      simp only [hconn, Token.Wait, publish, h]
      simp
  · intro client hunknown hconn
    have h1 : ¬ command.action = "up" := fun h => hunknown (Or.inl h)
    have h2 : ¬ command.action = "down" := fun h => hunknown (Or.inr (Or.inl h))
    have h3 : ¬ command.action = "restart" := fun h => hunknown (Or.inr (Or.inr h))
    have hrun : execute_command client command devices
        = ([Event.Connect (get_device_for_command devices command).1.WB_MQTT_HOST none],
            some ("Action " ++ command.action ++ " is unknown")) := by
      unfold execute_command
      simp [hconn, Token.Wait, h1, h2, h3]
    refine ⟨hrun, ?_⟩
    rw [hrun]
    rfl

/-- Witness for C18: `power restart d1` is accepted, resolves to the record of `d1`
and runs to a nil result on a broker that accepts everything. -/
theorem validator_executor_agree_witness :
    is_command_correct (Command.mk "power" "restart" "d1")
        [Device.mk "host" "d1" "power" "K1", Device.mk "host" "d2" "boot_mode" "K2"]
      = (true, none)
    ∧ (execute_command okBroker (Command.mk "power" "restart" "d1")
        [Device.mk "host" "d1" "power" "K1", Device.mk "host" "d2" "boot_mode" "K2"]).2
      = none :=
  ⟨by decide,
    ((validator_executor_agree
      [Device.mk "host" "d1" "power" "K1", Device.mk "host" "d2" "boot_mode" "K2"]
      (Command.mk "power" "restart" "d1")).1 (by decide)).2.2 okBroker rfl⟩

/-! ## Error messages of the validator -/

/-- C16, counterexample: with `d1` defined for `power` only, `(boot_mode, down, d1)` is
rejected with `no applicable device`, which does not contain `boot_mode`; and
`(boot_mode, restart, d2)` is rejected with `Action 'restart' is not supported`,
which does not contain `boot_mode` either. -/
theorem is_command_correct_error_names_counterexample :
    is_command_correct (Command.mk "boot_mode" "down" "d1")
        [Device.mk "host" "d1" "power" "K1", Device.mk "host" "d2" "boot_mode" "K2"]
      = (false, some "no applicable device")
    ∧ ¬ is_substring "boot_mode" "no applicable device"
    ∧ is_command_correct (Command.mk "boot_mode" "restart" "d2")
        [Device.mk "host" "d1" "power" "K1", Device.mk "host" "d2" "boot_mode" "K2"]
      = (false, some "Action 'restart' is not supported")
    ∧ ¬ is_substring "boot_mode" "Action 'restart' is not supported" := by
  decide

/-- C16, amended: every rejection by `is_command_correct` carries a message.  When no
device has the command's name it is `Device '<name>' is not defined` and contains the
device name; when the name exists but not for the target it is the fixed text
`no applicable device`; when the record exists and the action is refused it is
`Action '<action>' is not supported` and contains the action. -/
theorem is_command_correct_error_names (devices : List Device) (command : Command)
    (hrej : (is_command_correct command devices).1 = false) :
    ∃ message, is_command_correct command devices = (false, some message)
      ∧ ((∀ d ∈ devices, d.NAME ≠ command.device_name) →
          message = "Device '" ++ command.device_name ++ "' is not defined"
            ∧ is_substring command.device_name message)
      ∧ ((∃ d ∈ devices, d.NAME = command.device_name) →
          (∀ d ∈ devices,
            ¬ (d.NAME = command.device_name ∧ d.TARGET = command.target)) →
          message = "no applicable device")
      ∧ ((∃ d ∈ devices, d.NAME = command.device_name ∧ d.TARGET = command.target) →
          message = "Action '" ++ command.action ++ "' is not supported"
            ∧ is_substring command.action message) := by
  by_cases hname : ∃ d ∈ devices, d.NAME = command.device_name
  · by_cases hpair : ∃ d ∈ devices, d.NAME = command.device_name ∧ d.TARGET = command.target
    · refine ⟨"Action '" ++ command.action ++ "' is not supported",
        is_command_correct_rejected_of_match devices command hpair hrej, ?_, ?_, ?_⟩
      · intro hno
        obtain ⟨d, hd, hn⟩ := hname
        exact absurd hn (hno d hd)
      · intro _ hno
        obtain ⟨d, hd, hp⟩ := hpair
        exact absurd hp (hno d hd)
      · intro _
        refine ⟨rfl, ?_⟩
        unfold is_substring
        simp only [String.data_append]
        exact ⟨"Action '".data, "' is not supported".data, rfl⟩
    · have hno : ∀ d ∈ devices,
          ¬ (d.NAME = command.device_name ∧ d.TARGET = command.target) :=
        fun d hd hp => hpair ⟨d, hd, hp⟩
      refine ⟨"no applicable device",
        is_command_correct_no_pair devices command hname hno, ?_, ?_, ?_⟩
      · intro hnone
        obtain ⟨d, hd, hn⟩ := hname
        exact absurd hn (hnone d hd)
      · intro _ _
        rfl
      · intro hp
        exact absurd hp hpair
  · have hno : ∀ d ∈ devices, d.NAME ≠ command.device_name :=
      fun d hd hn => hname ⟨d, hd, hn⟩
    refine ⟨"Device '" ++ command.device_name ++ "' is not defined",
      is_command_correct_no_name devices command hno, ?_, ?_, ?_⟩
    · intro _
      refine ⟨rfl, ?_⟩
      unfold is_substring
      simp only [String.data_append]
      exact ⟨"Device '".data, "' is not defined".data, rfl⟩
    · intro hn
      exact absurd hn hname
    · rintro ⟨d, hd, hn, _⟩
      exact absurd hn (hno d hd)

/-- Witness for C16 amended: `(power, skip, d1)` is rejected and the message contains
`skip`. -/
theorem is_command_correct_error_names_witness :
    (is_command_correct (Command.mk "power" "skip" "d1")
        [Device.mk "host" "d1" "power" "K1", Device.mk "host" "d2" "boot_mode" "K2"]).1
      = false
    ∧ ∃ message, is_command_correct (Command.mk "power" "skip" "d1")
          [Device.mk "host" "d1" "power" "K1", Device.mk "host" "d2" "boot_mode" "K2"]
        = (false, some message)
      ∧ is_substring "skip" message :=
  ⟨by decide,
    (is_command_correct_error_names
      [Device.mk "host" "d1" "power" "K1", Device.mk "host" "d2" "boot_mode" "K2"]
      (Command.mk "power" "skip" "d1") (by decide)).imp
      (fun _ h => ⟨h.1, (h.2.2.2 ⟨Device.mk "host" "d1" "power" "K1", by simp, rfl, rfl⟩).2⟩)⟩

/-! ## Help page: order of strings and sorting -/

theorem string_le_iff (a b : String) : string_le a b ↔ a ≤ b :=
  String.le_iff_toList_le.symm

theorem string_le_total (a b : String) : string_le a b ∨ string_le b a := by
  rw [string_le_iff, string_le_iff]
  exact le_total a b

theorem string_le_trans (a b c : String) (hab : string_le a b) (hbc : string_le b c) :
    string_le a c := by
  rw [string_le_iff] at *
  exact le_trans hab hbc

theorem string_le_antisymm (a b : String) (hab : string_le a b) (hba : string_le b a) :
    a = b := by
  rw [string_le_iff] at *
  exact le_antisymm hab hba

/-- The result of `sort.Strings` is in increasing order. -/
theorem sort_Strings_sorted (s : List String) : (sort_Strings s).Sorted string_le := by
  haveI : IsTotal String string_le := ⟨string_le_total⟩
  haveI : IsTrans String string_le := ⟨string_le_trans⟩
  exact List.sorted_insertionSort string_le s

/-- The result of `sort.Strings` is a rearrangement of the slice. -/
theorem sort_Strings_perm (s : List String) : List.Perm (sort_Strings s) s :=
  List.perm_insertionSort string_le s

/-- Two duplicate-free slices with the same elements are sorted to the same slice. -/
theorem sort_Strings_eq_of_mem_iff (l₁ l₂ : List String) (h₁ : l₁.Nodup) (h₂ : l₂.Nodup)
    (hmem : ∀ x, x ∈ l₁ ↔ x ∈ l₂) : sort_Strings l₁ = sort_Strings l₂ := by
  haveI : IsAntisymm String string_le := ⟨string_le_antisymm⟩
  have hperm : List.Perm l₁ l₂ := (List.perm_ext_iff_of_nodup h₁ h₂).mpr hmem
  have hp : List.Perm (sort_Strings l₁) (sort_Strings l₂) :=
    ((sort_Strings_perm l₁).trans hperm).trans (sort_Strings_perm l₂).symm
  exact List.eq_of_perm_of_sorted hp (sort_Strings_sorted l₁) (sort_Strings_sorted l₂)

theorem is_contains_iff (list : List String) (item : String) :
    is_contains list item = true ↔ item ∈ list := by
  induction list with
  | nil => simp [is_contains]
  | cons i rest ih =>
    unfold is_contains
    by_cases h : i = item
    · simp [h]
    · rw [if_neg h, ih]
      constructor
      · intro hm
        exact List.mem_cons_of_mem i hm
      · intro hm
        rcases List.mem_cons.mp hm with rfl | hm'
        · exact absurd rfl h
        · exact hm'

/-- The guarded append adds the item to the elements and nothing else. -/
theorem mem_append_if_absent (list : List String) (item x : String) :
    x ∈ append_if_absent list item ↔ x ∈ list ∨ x = item := by
  unfold append_if_absent
  by_cases h : is_contains list item = true
  · have hmem := (is_contains_iff list item).mp h
    simp only [h, Bool.not_true, Bool.false_eq_true, if_false]
    constructor
    · exact Or.inl
    · rintro (hx | rfl)
      · exact hx
      · exact hmem
  · simp only [Bool.not_eq_true] at h
    simp [h]

theorem nodup_append_if_absent (list : List String) (item : String) (hl : list.Nodup) :
    (append_if_absent list item).Nodup := by
  unfold append_if_absent
  by_cases h : is_contains list item = true
  · simp only [h, Bool.not_true, Bool.false_eq_true, if_false]
    exact hl
  · have hnot : item ∉ list := fun hm => h ((is_contains_iff list item).mpr hm)
    simp only [Bool.not_eq_true] at h
    simp only [h, Bool.not_false, if_true]
    rw [List.nodup_append]
    refine ⟨hl, List.nodup_singleton item, ?_⟩
    intro a ha hb
    rw [List.mem_singleton] at hb
    exact hnot (hb ▸ ha)

theorem mem_foldl_append_if_absent (items list : List String) (x : String) :
    x ∈ items.foldl append_if_absent list ↔ x ∈ list ∨ x ∈ items := by
  induction items generalizing list with
  | nil => simp
  | cons i rest ih =>
    rw [List.foldl_cons, ih, mem_append_if_absent, List.mem_cons]
    constructor
    · rintro ((h | h) | h)
      · exact Or.inl h
      · exact Or.inr (Or.inl h)
      · exact Or.inr (Or.inr h)
    · rintro (h | h | h)
      · exact Or.inl (Or.inl h)
      · exact Or.inl (Or.inr h)
      · exact Or.inr h

theorem nodup_foldl_append_if_absent (items list : List String) (hl : list.Nodup) :
    (items.foldl append_if_absent list).Nodup := by
  induction items generalizing list with
  | nil => exact hl
  | cons i rest ih =>
    rw [List.foldl_cons]
    exact ih _ (nodup_append_if_absent list i hl)

/-! ## Help page: the three slices of the loop -/

/-- Once `restart` is in `allowed_actions` the loop leaves the slice alone. -/
theorem foldl_append_restart_full (targets : List String) :
    targets.foldl append_restart_for ["up", "down", "restart"] = ["up", "down", "restart"] := by
  induction targets with
  | nil => rfl
  | cons t rest ih =>
    rw [List.foldl_cons]
    have hstep : append_restart_for ["up", "down", "restart"] t = ["up", "down", "restart"] := by
      unfold append_restart_for
      have hc : is_contains ["up", "down", "restart"] "restart" = true := by decide
      simp [hc]
    rw [hstep, ih]

/-- From `["up", "down"]` the loop adds `restart` once, at the first `power` target. -/
theorem foldl_append_restart (targets : List String) :
    targets.foldl append_restart_for ["up", "down"]
      = if "power" ∈ targets then ["up", "down", "restart"] else ["up", "down"] := by
  induction targets with
  | nil => simp
  | cons t rest ih =>
    rw [List.foldl_cons]
    by_cases ht : t = "power"
    · have hstep : append_restart_for ["up", "down"] t = ["up", "down", "restart"] := by
        unfold append_restart_for
        have hc : ¬ is_contains ["up", "down"] "restart" = true := by decide
        simp [ht, hc]
      rw [hstep, foldl_append_restart_full, if_pos (by simp [ht])]
    · have hstep : append_restart_for ["up", "down"] t = ["up", "down"] := by
        unfold append_restart_for
        simp [ht]
      rw [hstep, ih]
      have hiff : "power" ∈ t :: rest ↔ "power" ∈ rest := by
        rw [List.mem_cons]
        constructor
        · rintro (h | h)
          · exact absurd h.symm ht
          · exact h
        · exact Or.inr
      by_cases hp : "power" ∈ rest
      · rw [if_pos hp, if_pos (hiff.mpr hp)]
      · rw [if_neg hp, if_neg (fun h => hp (hiff.mp h))]

/-- The loop of `generate_help_page` treats its three slices independently. -/
theorem foldl_generate_help_page_step (lower : String → String) (devices : List Device)
    (state : List String × List String × List String) :
    devices.foldl (generate_help_page_step lower) state
      = ((devices.map fun d => lower d.TARGET).foldl append_if_absent state.1,
          (devices.map fun d => lower d.NAME).foldl append_if_absent state.2.1,
          (devices.map fun d => lower d.TARGET).foldl append_restart_for state.2.2) := by
  induction devices generalizing state with
  | nil => rfl
  | cons d rest ih =>
    rw [List.foldl_cons, ih]
    rfl

/-- The three slices after the loop. -/
theorem generate_help_page_lists_eq (lower : String → String) (devices : List Device) :
    generate_help_page_lists lower devices
      = ((devices.map fun d => lower d.TARGET).foldl append_if_absent [],
          (devices.map fun d => lower d.NAME).foldl append_if_absent [],
          if (∃ d ∈ devices, lower d.TARGET = "power") then ["up", "down", "restart"]
          else ["up", "down"]) := by
  unfold generate_help_page_lists
  rw [foldl_generate_help_page_step, foldl_append_restart]
  have hiff : "power" ∈ (devices.map fun d => lower d.TARGET)
      ↔ ∃ d ∈ devices, lower d.TARGET = "power" := by
    simp [List.mem_map]
  by_cases hp : ∃ d ∈ devices, lower d.TARGET = "power"
  · rw [if_pos hp, if_pos (hiff.mpr hp)]
  · rw [if_neg hp, if_neg (fun h => hp (hiff.mp h))]

/-- The targets slice holds the lower-cased `TARGET` values, each once. -/
theorem generate_help_page_lists_targets (lower : String → String) (devices : List Device) :
    (generate_help_page_lists lower devices).1.Nodup
    ∧ ∀ x, x ∈ (generate_help_page_lists lower devices).1
        ↔ ∃ d ∈ devices, lower d.TARGET = x := by
  rw [generate_help_page_lists_eq]
  refine ⟨nodup_foldl_append_if_absent _ [] List.nodup_nil, ?_⟩
  intro x
  rw [mem_foldl_append_if_absent]
  simp [List.mem_map]

/-- The devices slice holds the lower-cased `NAME` values, each once. -/
theorem generate_help_page_lists_devices (lower : String → String) (devices : List Device) :
    (generate_help_page_lists lower devices).2.1.Nodup
    ∧ ∀ x, x ∈ (generate_help_page_lists lower devices).2.1
        ↔ ∃ d ∈ devices, lower d.NAME = x := by
  rw [generate_help_page_lists_eq]
  refine ⟨nodup_foldl_append_if_absent _ [] List.nodup_nil, ?_⟩
  intro x
  rw [mem_foldl_append_if_absent]
  simp [List.mem_map]

/-- The actions slice is decided by the presence of a `power` target. -/
theorem generate_help_page_lists_actions (lower : String → String) (devices : List Device) :
    (generate_help_page_lists lower devices).2.2
      = if (∃ d ∈ devices, lower d.TARGET = "power") then ["up", "down", "restart"]
        else ["up", "down"] := by
  rw [generate_help_page_lists_eq]

/-! ## Help page: rendering -/

/-- The tail of the rendering loop is the accumulating join of the quoted items. -/
theorem foldl_slice_to_string (items : List String) (acc : String) :
    (items.foldl
      (fun (state : String × Bool) item =>
        let my_str := state.1
        let is_first := state.2
        let my_str := if !is_first then my_str ++ ", " else my_str
        let my_str := my_str ++ ("'" ++ item ++ "'")
        (my_str, false))
      (acc, false)).1
      = String.intercalate.go acc ", " (items.map fun value => "'" ++ value ++ "'") := by
  induction items generalizing acc with
  | nil => rfl
  | cons x rest ih =>
    rw [List.foldl_cons, List.map_cons]
    simp only [Bool.not_false, if_true]
    rw [ih]
    rfl

/-- The closure `slice_to_string` renders the sorted slice as the quoted join. -/
theorem slice_to_string_eq (s : List String) :
    slice_to_string s = quote_join (sort_Strings s) := by
  have key : ∀ items : List String,
      (items.foldl
        (fun (state : String × Bool) item =>
          let my_str := state.1
          let is_first := state.2
          let my_str := if !is_first then my_str ++ ", " else my_str
          let my_str := my_str ++ ("'" ++ item ++ "'")
          (my_str, false))
        ("", true)).1
        = String.intercalate ", " (items.map fun value => "'" ++ value ++ "'") := by
    intro items
    cases items with
    | nil => rfl
    | cons x rest =>
      rw [List.foldl_cons, List.map_cons]
      simp only [Bool.not_true, Bool.false_eq_true, if_false, String.empty_append]
      rw [foldl_slice_to_string]
      rfl
  unfold slice_to_string quote_join
  exact key (sort_Strings s)

/-- The page is the fixed layout around the three rendered slices; the action text is
followed by the remark on `restart` when `restart` is among the actions. -/
theorem generate_help_page_eq_template (lower : String → String) (devices : List Device) :
    generate_help_page lower devices
      = help_template
          (quote_join (sort_Strings (generate_help_page_lists lower devices).1))
          (quote_join (sort_Strings (generate_help_page_lists lower devices).2.2)
            ++ (if is_contains (sort_Strings (generate_help_page_lists lower devices).2.2)
                  "restart" = true then
                " ('restart' may be applicable for 'power' only)"
              else ""))
          (quote_join (sort_Strings (generate_help_page_lists lower devices).2.1)) := by
  unfold generate_help_page help_template
  simp only [slice_to_string_eq]
  by_cases hc : is_contains (sort_Strings (generate_help_page_lists lower devices).2.2)
      "restart" = true
  · rw [if_pos hc, if_pos hc]
    simp only [String.append_assoc]
  · rw [if_neg hc, if_neg hc]
    simp only [String.append_assoc, String.append_empty]

theorem sort_Strings_actions_power :
    sort_Strings ["up", "down", "restart"] = ["down", "restart", "up"] := by
  decide

theorem sort_Strings_actions_default : sort_Strings ["up", "down"] = ["down", "up"] := by
  decide

/-- The action text of the page, by the presence of a `power` target. -/
theorem generate_help_page_eq_template_actions (lower : String → String)
    (devices : List Device) :
    generate_help_page lower devices
      = help_template
          (quote_join (sort_Strings (generate_help_page_lists lower devices).1))
          (if (∃ d ∈ devices, lower d.TARGET = "power") then
            "'down', 'restart', 'up' ('restart' may be applicable for 'power' only)"
          else "'down', 'up'")
          (quote_join (sort_Strings (generate_help_page_lists lower devices).2.1)) := by
  rw [generate_help_page_eq_template, generate_help_page_lists_actions]
  by_cases hp : ∃ d ∈ devices, lower d.TARGET = "power"
  · simp only [if_pos hp, sort_Strings_actions_power]
    rfl
  · simp only [if_neg hp, sort_Strings_actions_default]
    rfl

/-- Two tables with the same lower-cased targets and the same lower-cased names have
the same help page. -/
theorem generate_help_page_congr (lower : String → String) (devices₁ devices₂ : List Device)
    (htargets : ∀ x, (∃ d ∈ devices₁, lower d.TARGET = x) ↔ (∃ d ∈ devices₂, lower d.TARGET = x))
    (hnames : ∀ x, (∃ d ∈ devices₁, lower d.NAME = x) ↔ (∃ d ∈ devices₂, lower d.NAME = x)) :
    generate_help_page lower devices₁ = generate_help_page lower devices₂ := by
  have ht₁ := generate_help_page_lists_targets lower devices₁
  have ht₂ := generate_help_page_lists_targets lower devices₂
  have hd₁ := generate_help_page_lists_devices lower devices₁
  have hd₂ := generate_help_page_lists_devices lower devices₂
  have htl : sort_Strings (generate_help_page_lists lower devices₁).1
      = sort_Strings (generate_help_page_lists lower devices₂).1 :=
    sort_Strings_eq_of_mem_iff _ _ ht₁.1 ht₂.1
      (fun x => (ht₁.2 x).trans ((htargets x).trans (ht₂.2 x).symm))
  have hdl : sort_Strings (generate_help_page_lists lower devices₁).2.1
      = sort_Strings (generate_help_page_lists lower devices₂).2.1 :=
    sort_Strings_eq_of_mem_iff _ _ hd₁.1 hd₂.1
      (fun x => (hd₁.2 x).trans ((hnames x).trans (hd₂.2 x).symm))
  rw [generate_help_page_eq_template_actions lower devices₁,
    generate_help_page_eq_template_actions lower devices₂, htl, hdl]
  by_cases hp : ∃ d ∈ devices₁, lower d.TARGET = "power"
  · rw [if_pos hp, if_pos ((htargets "power").mp hp)]
  · rw [if_neg hp, if_neg (fun h => hp ((htargets "power").mpr h))]

/-- The layout determines the action text. -/
theorem help_template_actions_inj (targets devices a b : String)
    (h : help_template targets a devices = help_template targets b devices) : a = b := by
  have hdata := congrArg String.data h
  simp only [help_template, String.data_append, List.append_assoc,
    List.append_cancel_left_eq] at hdata
  exact String.ext (List.append_cancel_right hdata)

/-! ## Help page: `generate_help_page` -/

/-- C13: the help page does not depend on the order of the table nor on repeated
records: a permutation of the table, the table with one of its records added again,
and the table written twice all give the same page. -/
theorem generate_help_page_order_independent (lower : String → String)
    (devices : List Device) :
    (∀ devices', List.Perm devices devices' →
        generate_help_page lower devices' = generate_help_page lower devices)
    ∧ (∀ d ∈ devices,
        generate_help_page lower (d :: devices) = generate_help_page lower devices)
    ∧ generate_help_page lower (devices ++ devices) = generate_help_page lower devices := by
  refine ⟨?_, ?_, ?_⟩
  · intro devices' hperm
    apply generate_help_page_congr
    · intro x
      constructor
      · rintro ⟨d, hd, hx⟩
        exact ⟨d, hperm.mem_iff.mpr hd, hx⟩
      · rintro ⟨d, hd, hx⟩
        exact ⟨d, hperm.mem_iff.mp hd, hx⟩
    · intro x
      constructor
      · rintro ⟨d, hd, hx⟩
        exact ⟨d, hperm.mem_iff.mpr hd, hx⟩
      · rintro ⟨d, hd, hx⟩
        exact ⟨d, hperm.mem_iff.mp hd, hx⟩
  · intro d hd
    apply generate_help_page_congr
    · intro x
      constructor
      · rintro ⟨e, he, hx⟩
        rcases List.mem_cons.mp he with rfl | he'
        · exact ⟨e, hd, hx⟩
        · exact ⟨e, he', hx⟩
      · rintro ⟨e, he, hx⟩
        exact ⟨e, List.mem_cons_of_mem d he, hx⟩
    · intro x
      constructor
      · rintro ⟨e, he, hx⟩
        rcases List.mem_cons.mp he with rfl | he'
        · exact ⟨e, hd, hx⟩
        · exact ⟨e, he', hx⟩
      · rintro ⟨e, he, hx⟩
        exact ⟨e, List.mem_cons_of_mem d he, hx⟩
  · apply generate_help_page_congr
    · intro x
      constructor
      · rintro ⟨e, he, hx⟩
        rcases List.mem_append.mp he with he' | he'
        · exact ⟨e, he', hx⟩
        · exact ⟨e, he', hx⟩
      · rintro ⟨e, he, hx⟩
        exact ⟨e, List.mem_append_left devices he, hx⟩
    · intro x
      constructor
      · rintro ⟨e, he, hx⟩
        rcases List.mem_append.mp he with he' | he'
        · exact ⟨e, he', hx⟩
        · exact ⟨e, he', hx⟩
      · rintro ⟨e, he, hx⟩
        exact ⟨e, List.mem_append_left devices he, hx⟩

/-- Witness for C13: the two records of `TestParseTwoDevices` in either order give the
same page. -/
theorem generate_help_page_order_independent_witness :
    generate_help_page asciiLower
        [Device.mk "h" "DEVICE2" "BOOT" "K2", Device.mk "h" "DEVICE1" "POWER" "K1"]
      = generate_help_page asciiLower
        [Device.mk "h" "DEVICE1" "POWER" "K1", Device.mk "h" "DEVICE2" "BOOT" "K2"] :=
  (generate_help_page_order_independent asciiLower
    [Device.mk "h" "DEVICE1" "POWER" "K1", Device.mk "h" "DEVICE2" "BOOT" "K2"]).1
    [Device.mk "h" "DEVICE2" "BOOT" "K2", Device.mk "h" "DEVICE1" "POWER" "K1"]
    (List.Perm.swap _ _ _)

set_option maxRecDepth 100000 in
/-- C14: the help page is the fixed layout in which the `<target>` line is the quoted
join of a list that is in increasing order, has no duplicates and holds exactly the
lower-cased `TARGET` values of the table, and the `<device>` line is the same for the
lower-cased `NAME` values.  For the single device `DEVICE1`/`POWER` the page is the
one expected by `TestHelpPageForOneDevice`. -/
theorem generate_help_page_template :
    (∀ (lower : String → String) (devices : List Device),
      ∃ targets names actions,
        generate_help_page lower devices
          = help_template (quote_join targets) actions (quote_join names)
        ∧ targets.Sorted string_le ∧ targets.Nodup
        ∧ (∀ x, x ∈ targets ↔ ∃ d ∈ devices, lower d.TARGET = x)
        ∧ names.Sorted string_le ∧ names.Nodup
        ∧ (∀ x, x ∈ names ↔ ∃ d ∈ devices, lower d.NAME = x))
    ∧ generate_help_page asciiLower
        [Device.mk "wiren-board.test-stand" "DEVICE1" "POWER"
          "/devices/wb-mr3_17/controls/K1/on"]
      = "\nUsage:\n\twbcmd <target> <action> <device>\n\nOptions:\n\t<target>\t\t\tWhat you want switch. Allowed values: 'power'\n\t<action>\t\t\tWhat action you want to do. Allowed values: 'down', 'restart', 'up' ('restart' may be applicable for 'power' only)\n\t<device>\t\t\tDevice name. Allowed values: 'device1'\n" := by
  refine ⟨?_, by decide⟩
  intro lower devices
  have ht := generate_help_page_lists_targets lower devices
  have hd := generate_help_page_lists_devices lower devices
  refine ⟨sort_Strings (generate_help_page_lists lower devices).1,
    sort_Strings (generate_help_page_lists lower devices).2.1, _,
    generate_help_page_eq_template_actions lower devices,
    sort_Strings_sorted _, ?_, ?_, sort_Strings_sorted _, ?_, ?_⟩
  · exact (sort_Strings_perm _).nodup_iff.mpr ht.1
  · intro x
    rw [(sort_Strings_perm _).mem_iff]
    exact ht.2 x
  · exact (sort_Strings_perm _).nodup_iff.mpr hd.1
  · intro x
    rw [(sort_Strings_perm _).mem_iff]
    exact hd.2 x

/-- C15: the action text of the help page is `'down', 'restart', 'up'` followed by the
remark ` ('restart' may be applicable for 'power' only)` exactly when some device has
a `TARGET` equal to `power` after lower-casing; otherwise it is `'down', 'up'` with no
remark, as for the empty table. -/
theorem generate_help_page_actions (lower : String → String) (devices : List Device) :
    (generate_help_page lower devices
        = help_template
            (quote_join (sort_Strings (generate_help_page_lists lower devices).1))
            "'down', 'restart', 'up' ('restart' may be applicable for 'power' only)"
            (quote_join (sort_Strings (generate_help_page_lists lower devices).2.1))
      ↔ ∃ d ∈ devices, lower d.TARGET = "power")
    ∧ (generate_help_page lower devices
        = help_template
            (quote_join (sort_Strings (generate_help_page_lists lower devices).1))
            "'down', 'up'"
            (quote_join (sort_Strings (generate_help_page_lists lower devices).2.1))
      ↔ ¬ ∃ d ∈ devices, lower d.TARGET = "power")
    ∧ generate_help_page lower [] = help_template "" "'down', 'up'" "" := by
  have hpage := generate_help_page_eq_template_actions lower devices
  refine ⟨⟨?_, ?_⟩, ⟨?_, ?_⟩, ?_⟩
  · intro h
    by_contra hp
    rw [hpage, if_neg hp] at h
    have := help_template_actions_inj _ _ _ _ h
    exact absurd this (by decide)
  · intro hp
    rw [hpage, if_pos hp]
  · intro h hp
    rw [hpage, if_pos hp] at h
    have := help_template_actions_inj _ _ _ _ h
    exact absurd this (by decide)
  · intro hp
    rw [hpage, if_neg hp]
  · rw [generate_help_page_eq_template_actions lower []]
    simp only [List.not_mem_nil, false_and, exists_false, if_false]
    rfl

end Wbcmd
